import Mathlib

/-!
Reparse-point record codec (CommonUtils/ReparsePoint.cpp)

A shallow embedding of the encoders `BuildMountPoint`, `BuildSymlink`,
`CreateRawMountPoint`, of the decoders inside `ReadMountPoint`, `ReadSymlink`,
`GetMountPointTarget`, of `FixupPath`, and of the create and read operations
(`CreateMountPoint`, `CreateSymlink`, `IsMountPoint`, `IsSymlink`, `ReadRaw`).
The operating system is a parameter, and the calls made to it are recorded.

Memory is a list of bytes.  Every load and store is checked against the size
of the buffer it addresses: the C++ code performs no such check, so an access
outside the buffer is recorded as the distinct result `Mem.outOfBounds`
(undefined behaviour in the source) and never as a reported failure.
`ReadMountPoint` and `ReadSymlink` are also given as the machine runs them,
with unchecked loads that deliver whatever bytes follow the buffer; the two
runs agree whenever the checked one completes.
-/

namespace ReparsePoint

/-! ## Machine types -/

/-- An 8-bit byte (`BYTE`, `UCHAR`). -/
abbrev BYTE := Fin 256

/-- A UTF-16 code unit (`WCHAR`). -/
abbrev WCHAR := Fin 65536

/-- The contents of a `std::wstring`, without the terminator. -/
abbrev wstring := List WCHAR

/-- Conversion `static_cast<USHORT>(n)` of a `size_t` value. -/
def USHORT (n : Nat) : Nat := n % 65536

/-- The low byte of a number. -/
def byteOf (n : Nat) : BYTE := ⟨n % 256, Nat.mod_lt n (by decide)⟩

/-- Little-endian image of a 16-bit field. -/
def le16 (v : Nat) : List BYTE := [byteOf v, byteOf (v / 256)]

/-- Little-endian image of a 32-bit field. -/
def le32 (v : Nat) : List BYTE :=
  [byteOf v, byteOf (v / 256), byteOf (v / 65536), byteOf (v / 16777216)]

/-- The number a little-endian byte sequence denotes. -/
def fromLe : List BYTE → Nat
  | [] => 0
  | b :: bs => b.val + 256 * fromLe bs

/-- Bytes of a sequence of code units, as they lie in memory (UTF-16LE). -/
def wbytes : List WCHAR → List BYTE
  | [] => []
  | c :: s => byteOf c.val :: byteOf (c.val / 256) :: wbytes s

/-- Code units held by a byte sequence of even length. -/
def wchars : List BYTE → List WCHAR
  | b0 :: b1 :: rest =>
      ⟨b0.val + 256 * b1.val, by have h0 := b0.isLt; have h1 := b1.isLt; omega⟩ :: wchars rest
  | _ => []

/-- The array `std::wstring::c_str()` points to: the code units and a terminating zero. -/
def c_str (s : wstring) : List WCHAR := s ++ [0]

/-! ## Checked memory accesses -/

/-- Outcome of code that addresses a buffer without checking bounds. -/
inductive Mem (α : Type) where
  | done (a : α) : Mem α
  | outOfBounds : Mem α
  deriving DecidableEq, Repr

/-- Sequencing: an out-of-bounds access ends the run. -/
def Mem.bind {α β : Type} (m : Mem α) (f : α → Mem β) : Mem β :=
  match m with
  | Mem.done a => f a
  | Mem.outOfBounds => Mem.outOfBounds

instance : Monad Mem where
  pure := Mem.done
  bind := Mem.bind

/-- The bytes `[off, off + n)` of a buffer. -/
def slice (buf : List BYTE) (off n : Nat) : List BYTE := (buf.drop off).take n

/-- The buffer with `w` stored at byte offset `off`. -/
def writeAt (buf : List BYTE) (off : Nat) (w : List BYTE) : List BYTE :=
  buf.take off ++ w ++ buf.drop (off + w.length)

/-- Load of `n` bytes at byte offset `off`; loading no byte touches no memory. -/
def readBytes (buf : List BYTE) (off n : Nat) : Mem (List BYTE) :=
  if n = 0 ∨ off + n ≤ buf.length then Mem.done (slice buf off n) else Mem.outOfBounds

/-- Store of the bytes `w` at byte offset `off`; storing no byte touches no memory. -/
def writeBytes (buf : List BYTE) (off : Nat) (w : List BYTE) : Mem (List BYTE) :=
  if w.length = 0 ∨ off + w.length ≤ buf.length then Mem.done (writeAt buf off w)
  else Mem.outOfBounds

/-- Load of a `USHORT` field. -/
def readU16 (buf : List BYTE) (off : Nat) : Mem Nat := do
  let bs ← readBytes buf off 2
  pure (fromLe bs)

/-- Load of a `ULONG` field. -/
def readU32 (buf : List BYTE) (off : Nat) : Mem Nat := do
  let bs ← readBytes buf off 4
  pure (fromLe bs)

/-- Store of a `USHORT` field. -/
def writeU16 (buf : List BYTE) (off : Nat) (v : Nat) : Mem (List BYTE) :=
  writeBytes buf off (le16 v)

/-- Store of a `ULONG` field. -/
def writeU32 (buf : List BYTE) (off : Nat) (v : Nat) : Mem (List BYTE) :=
  writeBytes buf off (le32 v)

/-- The call `memcpy(dst + off, src, n)`: loads `n` bytes of `src`, stores them in `dst`. -/
def memcpy (dst : List BYTE) (off : Nat) (src : List BYTE) (n : Nat) : Mem (List BYTE) := do
  let bs ← readBytes src 0 n
  writeBytes dst off bs

/-- Construction `std::wstring(p, p + count)` with `p` at byte offset `off` of `buf`. -/
def readWString (buf : List BYTE) (off count : Nat) : Mem wstring := do
  let bs ← readBytes buf off (2 * count)
  pure (wchars bs)

/-! ## Record layout (`REPARSE_DATA_BUFFER`) -/

def IO_REPARSE_TAG_MOUNT_POINT : Nat := 0xA0000003
def IO_REPARSE_TAG_SYMLINK : Nat := 0xA000000C
def SYMLINK_FLAG_RELATIVE : Nat := 1

/-- The macro `FIELD_OFFSET(REPARSE_DATA_BUFFER, GenericReparseBuffer.DataBuffer)`. -/
def REPARSE_DATA_BUFFER_HEADER_LENGTH : Nat := 8

def off_ReparseTag : Nat := 0
def off_ReparseDataLength : Nat := 4
def off_Reserved : Nat := 6
def off_SubstituteNameOffset : Nat := 8
def off_SubstituteNameLength : Nat := 10
def off_PrintNameOffset : Nat := 12
def off_PrintNameLength : Nat := 14
/-- Byte offset of `MountPointReparseBuffer.PathBuffer`. -/
def off_MountPoint_PathBuffer : Nat := 16
/-- Byte offset of `SymbolicLinkReparseBuffer.Flags`. -/
def off_Symlink_Flags : Nat := 16
/-- Byte offset of `SymbolicLinkReparseBuffer.PathBuffer`. -/
def off_Symlink_PathBuffer : Nat := 20
/-- Byte offset of `GenericReparseBuffer.DataBuffer`. -/
def off_DataBuffer : Nat := 8

/-- Initial contents of a `typed_buffer_ptr<T>(size)`.  The class is declared in
typed_buffer.h, which is not part of the sources: all that is used is that the
buffer holds `size` bytes; their initial values are left arbitrary. -/
structure typed_buffer_alloc where
  init : Nat → List BYTE
  size_init : ∀ n, (init n).length = n

/-- A zero-filled allocation. -/
def zeroed : typed_buffer_alloc where
  init := fun n => List.replicate n 0
  size_init := fun n => List.length_replicate n 0

/-! ## Encoders -/

/-- The function `BuildMountPoint(target, printname)`. -/
def BuildMountPoint (A : typed_buffer_alloc) (target printname : wstring) : Mem (List BYTE) := do
  let target_byte_size := target.length * 2
  let printname_byte_size := printname.length * 2
  let path_buffer_size := target_byte_size + printname_byte_size + 8 + 4
  let total_size := path_buffer_size + REPARSE_DATA_BUFFER_HEADER_LENGTH
  let buffer := A.init total_size
  let buffer ← writeU32 buffer off_ReparseTag IO_REPARSE_TAG_MOUNT_POINT
  let buffer ← writeU16 buffer off_ReparseDataLength (USHORT path_buffer_size)
  let buffer ← writeU16 buffer off_Reserved 0
  let buffer ← writeU16 buffer off_SubstituteNameOffset 0
  let buffer ← writeU16 buffer off_SubstituteNameLength (USHORT target_byte_size)
  let buffer ← memcpy buffer off_MountPoint_PathBuffer (wbytes (c_str target))
    (target_byte_size + 2)
  let buffer ← writeU16 buffer off_PrintNameOffset (USHORT (target_byte_size + 2))
  let buffer ← writeU16 buffer off_PrintNameLength (USHORT printname_byte_size)
  let buffer ← memcpy buffer (off_MountPoint_PathBuffer + 2 * (target.length + 1))
    (wbytes (c_str printname)) (printname_byte_size + 2)
  pure buffer

/-- The function `BuildSymlink(target, printname, relative)`. -/
def BuildSymlink (A : typed_buffer_alloc) (target printname : wstring) (relative : Bool) :
    Mem (List BYTE) := do
  let target_byte_size := target.length * 2
  let printname_byte_size := printname.length * 2
  let path_buffer_size := target_byte_size + printname_byte_size + 12 + 4
  let total_size := path_buffer_size + REPARSE_DATA_BUFFER_HEADER_LENGTH
  let buffer := A.init total_size
  let buffer ← writeU32 buffer off_ReparseTag IO_REPARSE_TAG_SYMLINK
  let buffer ← writeU16 buffer off_ReparseDataLength (USHORT path_buffer_size)
  let buffer ← writeU16 buffer off_Reserved 0
  let buffer ← writeU16 buffer off_SubstituteNameOffset 0
  let buffer ← writeU16 buffer off_SubstituteNameLength (USHORT target_byte_size)
  let buffer ← memcpy buffer off_Symlink_PathBuffer (wbytes (c_str target))
    (target_byte_size + 2)
  let buffer ← writeU16 buffer off_PrintNameOffset (USHORT (target_byte_size + 2))
  let buffer ← writeU16 buffer off_PrintNameLength (USHORT printname_byte_size)
  let buffer ← memcpy buffer (off_Symlink_PathBuffer + 2 * (target.length + 1))
    (wbytes (c_str printname)) (printname_byte_size + 2)
  let buffer ← writeU32 buffer off_Symlink_Flags (if relative then SYMLINK_FLAG_RELATIVE else 0)
  pure buffer


/-- Lines 254 to 259 of `CreateRawMountPoint`: the record handed to the system call. -/
def CreateRawMountPoint_buffer (A : typed_buffer_alloc) (reparse_tag : Nat)
    (buffer : List BYTE) : Mem (List BYTE) := do
  let reparse_buffer := A.init (8 + buffer.length)
  let reparse_buffer ← writeU32 reparse_buffer off_ReparseTag reparse_tag
  let reparse_buffer ← writeU16 reparse_buffer off_ReparseDataLength (USHORT buffer.length)
  let reparse_buffer ← writeU16 reparse_buffer off_Reserved 0
  let reparse_buffer ← memcpy reparse_buffer off_DataBuffer buffer buffer.length
  pure reparse_buffer

/-! ## Path fixup -/

/-- The element `str[0]` of a `std::wstring`: its first code unit, the terminator when the
string is empty. -/
def wstring_front (str : wstring) : WCHAR :=
  match c_str str with
  | c :: _ => c
  | [] => 0

/-- The literal `L"\\??\\"`. -/
def device_namespace : wstring := [92, 63, 63, 92]

/-- The function `FixupPath(str)`; 92 is the backslash. -/
def FixupPath (str : wstring) : wstring :=
  if wstring_front str ≠ 92 then device_namespace ++ str else str

/-! ## The operating system -/

/-- A Win32 `HANDLE`. -/
abbrev HANDLE := Nat

/-- Calls made to the operating system. -/
inductive OsCall where
  | CreateFileW (path : wstring) (writable : Bool) : OsCall
  | SET_REPARSE_POINT (h : HANDLE) (payload : List BYTE) : OsCall
  | DELETE_REPARSE_POINT (h : HANDLE) (tag : Nat) : OsCall
  | GET_REPARSE_POINT (h : HANDLE) (nOutBufferSize : Nat) : OsCall
  deriving DecidableEq, Repr

/-- Behaviour of the operating system and of `ScopedHandle` (ScopedHandle.h is not part of
the sources).  Every answer may depend on the calls made so far. -/
structure Os where
  /-- Handle returned by `CreateFileW`. -/
  CreateFileW : List OsCall → wstring → Bool → HANDLE
  INVALID_HANDLE_VALUE : HANDLE
  /-- The method `ScopedHandle::IsValid`. -/
  IsValid : HANDLE → Bool
  /-- Whether `DeviceIoControl(FSCTL_SET_REPARSE_POINT)` returns `TRUE`. -/
  SetReparsePoint : List OsCall → HANDLE → List BYTE → Bool
  /-- Whether `DeviceIoControl(FSCTL_DELETE_REPARSE_POINT)` returns `TRUE`. -/
  DeleteReparsePoint : List OsCall → HANDLE → Nat → Bool
  /-- The bytes `DeviceIoControl(FSCTL_GET_REPARSE_POINT)` stores at the start of the output
  buffer (their count is `lpBytesReturned`), or `none` when the call fails. -/
  GetReparsePoint : List OsCall → HANDLE → Nat → Option (List BYTE)
  /-- Value of `GetLastError()` after the calls made so far. -/
  GetLastError : List OsCall → Nat

/-- Program state: the variable `g_last_error` and the calls made so far, oldest first. -/
structure State where
  g_last_error : Nat
  calls : List OsCall
  deriving DecidableEq, Repr

/-- The function `OpenReparsePoint(path, writable)`. -/
def OpenReparsePoint (os : Os) (path : wstring) (writable : Bool) (st : State) :
    HANDLE × State :=
  let h := os.CreateFileW st.calls path writable
  let st := { st with calls := st.calls ++ [OsCall.CreateFileW path writable] }
  if h = os.INVALID_HANDLE_VALUE then
    (h, { st with g_last_error := os.GetLastError st.calls })
  else (h, st)

/-- The function `SetReparsePoint(handle, reparse_buffer)`: the whole buffer is the payload. -/
def SetReparsePoint (os : Os) (handle : HANDLE) (reparse_buffer : List BYTE) (st : State) :
    Bool × State :=
  if !os.IsValid handle then (false, st)
  else
    let ret := os.SetReparsePoint st.calls handle reparse_buffer
    let st := { st with calls := st.calls ++ [OsCall.SET_REPARSE_POINT handle reparse_buffer] }
    if !ret then (ret, { st with g_last_error := os.GetLastError st.calls })
    else (ret, st)

/-- The overload `CreateMountPointInternal(const std::wstring& path, buffer)`. -/
def CreateMountPointInternal (os : Os) (path : wstring) (buffer : List BYTE) (st : State) :
    Bool × State :=
  let (handle, st) := OpenReparsePoint os path true st
  if !os.IsValid handle then (false, st)
  else SetReparsePoint os handle buffer st

/-- The overload `CreateMountPointInternal(const ScopedHandle& handle, buffer)`. -/
def CreateMountPointInternal_HANDLE (os : Os) (handle : HANDLE) (buffer : List BYTE)
    (st : State) : Bool × State :=
  SetReparsePoint os handle buffer st

/-- The method `ReparsePoint::CreateMountPoint(path, target, printname)`. -/
def CreateMountPoint (os : Os) (A : typed_buffer_alloc) (path target printname : wstring)
    (st : State) : Mem (Bool × State) :=
  if target.length = 0 then pure (false, st)
  else do
    let buffer ← BuildMountPoint A (FixupPath target) printname
    pure (CreateMountPointInternal os path buffer st)

/-- The method `ReparsePoint::CreateSymlink(path, target, printname, relative)`. -/
def CreateSymlink (os : Os) (A : typed_buffer_alloc) (path target printname : wstring)
    (relative : Bool) (st : State) : Mem (Bool × State) :=
  if target.length = 0 then pure (false, st)
  else do
    let buffer ← BuildSymlink A (if !relative then FixupPath target else target) printname
      relative
    pure (CreateMountPointInternal os path buffer st)

/-- The method `ReparsePoint::CreateSymlink(HANDLE h, target, printname, relative)`. -/
def CreateSymlink_HANDLE (os : Os) (A : typed_buffer_alloc) (h : HANDLE)
    (target printname : wstring) (relative : Bool) (st : State) : Mem (Bool × State) :=
  if !os.IsValid h then pure (false, st)
  else do
    let buffer ← BuildSymlink A (if !relative then FixupPath target else target) printname
      relative
    pure (CreateMountPointInternal_HANDLE os h buffer st)

/-- The method `ReparsePoint::CreateRawMountPoint(path, reparse_tag, buffer)`. -/
def CreateRawMountPoint (os : Os) (A : typed_buffer_alloc) (path : wstring)
    (reparse_tag : Nat) (buffer : List BYTE) (st : State) : Mem (Bool × State) := do
  let reparse_buffer ← CreateRawMountPoint_buffer A reparse_tag buffer
  pure (CreateMountPointInternal os path reparse_buffer st)

/-! ## Decoders -/

/-- The decode of `ReadMountPoint` once `ReadReparsePoint` has filled `buffer`:
`none` is the result `false`, `some (target, printname)` the result `true`. -/
def ReadMountPoint_decode (buffer : List BYTE) : Mem (Option (wstring × wstring)) := do
  let ReparseTag ← readU32 buffer off_ReparseTag
  if ReparseTag = IO_REPARSE_TAG_MOUNT_POINT then
    let SubstituteNameOffset ← readU16 buffer off_SubstituteNameOffset
    let target_name := off_MountPoint_PathBuffer + 2 * (SubstituteNameOffset / 2)
    let PrintNameOffset ← readU16 buffer off_PrintNameOffset
    let display_name := off_MountPoint_PathBuffer + 2 * (PrintNameOffset / 2)
    let SubstituteNameLength ← readU16 buffer off_SubstituteNameLength
    let target ← readWString buffer target_name (SubstituteNameLength / 2)
    let PrintNameLength ← readU16 buffer off_PrintNameLength
    let printname ← readWString buffer display_name (PrintNameLength / 2)
    pure (some (target, printname))
  else pure none

/-- The decode of `ReadSymlink` once `ReadReparsePoint` has filled `buffer`:
`none` is the result `false`, `some (target, printname, flags)` the result `true`. -/
def ReadSymlink_decode (buffer : List BYTE) : Mem (Option (wstring × wstring × Nat)) := do
  let ReparseTag ← readU32 buffer off_ReparseTag
  if ReparseTag = IO_REPARSE_TAG_SYMLINK then
    let SubstituteNameOffset ← readU16 buffer off_SubstituteNameOffset
    let target_name := off_Symlink_PathBuffer + 2 * (SubstituteNameOffset / 2)
    let PrintNameOffset ← readU16 buffer off_PrintNameOffset
    let display_name := off_Symlink_PathBuffer + 2 * (PrintNameOffset / 2)
    let SubstituteNameLength ← readU16 buffer off_SubstituteNameLength
    let target ← readWString buffer target_name (SubstituteNameLength / 2)
    let PrintNameLength ← readU16 buffer off_PrintNameLength
    let printname ← readWString buffer display_name (PrintNameLength / 2)
    let Flags ← readU32 buffer off_Symlink_Flags
    pure (some (target, printname, Flags))
  else pure none

/-- The code `ERROR_REPARSE_TAG_MISMATCH` (winerror.h). -/
def ERROR_REPARSE_TAG_MISMATCH : Nat := 4394

/-- The constant `MAXIMUM_REPARSE_DATA_BUFFER_SIZE` (winnt.h). -/
def MAXIMUM_REPARSE_DATA_BUFFER_SIZE : Nat := 16 * 1024

/-- The decode of `GetMountPointTarget` on the non-empty buffer `buf` that
`GetReparsePointData` returned: the string returned and the new `g_last_error`. -/
def GetMountPointTarget_decode (buf : List BYTE) (g_last_error : Nat) :
    Mem (wstring × Nat) := do
  let ReparseTag ← readU32 buf off_ReparseTag
  if ReparseTag ≠ IO_REPARSE_TAG_MOUNT_POINT then
    pure ([], ERROR_REPARSE_TAG_MISMATCH)
  else
    let SubstituteNameOffset ← readU16 buf off_SubstituteNameOffset
    let base := off_MountPoint_PathBuffer + 2 * (SubstituteNameOffset / 2)
    let SubstituteNameLength ← readU16 buf off_SubstituteNameLength
    let s ← readWString buf base (SubstituteNameLength / 2)
    pure (s, g_last_error)

/-! ## Read operations -/

/-- The function `ReadReparsePoint(path, reparse_buffer)`: `none` is the result `false`;
on success the buffer, allocated with 4096 bytes, is resized to the `dwSize` bytes that
the system call stored. -/
def ReadReparsePoint (os : Os) (A : typed_buffer_alloc) (path : wstring) (st : State) :
    Option (List BYTE) × State :=
  let (handle, st) := OpenReparsePoint os path false st
  let reparse_buffer := A.init 4096
  let ret := os.GetReparsePoint st.calls handle reparse_buffer.length
  let st :=
    { st with calls := st.calls ++ [OsCall.GET_REPARSE_POINT handle reparse_buffer.length] }
  match ret with
  | none => (none, { st with g_last_error := os.GetLastError st.calls })
  | some data => (some (data.take reparse_buffer.length), st)

/-- The method `ReparsePoint::ReadMountPoint(path, target, printname)`. -/
def ReadMountPoint (os : Os) (A : typed_buffer_alloc) (path : wstring) (st : State) :
    Mem (Option (wstring × wstring) × State) :=
  match ReadReparsePoint os A path st with
  | (none, st) => pure (none, st)
  | (some buffer, st) => do
    let r ← ReadMountPoint_decode buffer
    pure (r, st)

/-- The method `ReparsePoint::ReadSymlink(path, target, printname, flags)`. -/
def ReadSymlink (os : Os) (A : typed_buffer_alloc) (path : wstring) (st : State) :
    Mem (Option (wstring × wstring × Nat) × State) :=
  match ReadReparsePoint os A path st with
  | (none, st) => pure (none, st)
  | (some buffer, st) => do
    let r ← ReadSymlink_decode buffer
    pure (r, st)

/-- The function `GetReparsePointData(handle)`: a buffer of
`MAXIMUM_REPARSE_DATA_BUFFER_SIZE` bytes whose first bytes the system call has stored, or
an empty buffer when the call fails. -/
def GetReparsePointData (os : Os) (A : typed_buffer_alloc) (handle : HANDLE) (st : State) :
    List BYTE × State :=
  let buf := A.init MAXIMUM_REPARSE_DATA_BUFFER_SIZE
  let ret := os.GetReparsePoint st.calls handle buf.length
  let st := { st with calls := st.calls ++ [OsCall.GET_REPARSE_POINT handle buf.length] }
  match ret with
  | none => (A.init 0, { st with g_last_error := os.GetLastError st.calls })
  | some data => (writeAt buf 0 (data.take buf.length), st)

/-- The method `ReparsePoint::GetMountPointTarget(path)`. -/
def GetMountPointTarget (os : Os) (A : typed_buffer_alloc) (path : wstring) (st : State) :
    Mem (wstring × State) :=
  let (handle, st) := OpenReparsePoint os path false st
  if !os.IsValid handle then pure ([], st)
  else
    let (buf, st) := GetReparsePointData os A handle st
    if buf.length = 0 then pure ([], st)
    else do
      let (s, e) ← GetMountPointTarget_decode buf st.g_last_error
      pure (s, { st with g_last_error := e })

/-- The function `IsReparseTag(path, reparse_tag)`. -/
def IsReparseTag (os : Os) (A : typed_buffer_alloc) (path : wstring) (reparse_tag : Nat)
    (st : State) : Mem (Bool × State) :=
  match ReadReparsePoint os A path st with
  | (some buffer, st) => do
    let ReparseTag ← readU32 buffer off_ReparseTag
    pure (decide (ReparseTag = reparse_tag), st)
  | (none, st) => pure (false, st)

/-- The method `ReparsePoint::IsMountPoint(path)`. -/
def IsMountPoint (os : Os) (A : typed_buffer_alloc) (path : wstring) (st : State) :
    Mem (Bool × State) :=
  IsReparseTag os A path IO_REPARSE_TAG_MOUNT_POINT st

/-- The method `ReparsePoint::IsSymlink(path)`. -/
def IsSymlink (os : Os) (A : typed_buffer_alloc) (path : wstring) (st : State) :
    Mem (Bool × State) :=
  IsReparseTag os A path IO_REPARSE_TAG_SYMLINK st

/-- The call `v.resize(n)` on a `std::vector<BYTE>`: the first `n` bytes are kept, new
bytes are zero. -/
def vector_resize (v : List BYTE) (n : Nat) : List BYTE :=
  (v ++ List.replicate (n - v.length) 0).take n

/-- The method `ReparsePoint::ReadRaw(path, reparse_tag, raw_data)`; `raw_data` is the
vector the caller passes in.  `none` is the result `false`, `some (tag, bytes)` the
result `true`. -/
def ReadRaw (os : Os) (A : typed_buffer_alloc) (path : wstring) (raw_data : List BYTE)
    (st : State) : Mem (Option (Nat × List BYTE) × State) :=
  match ReadReparsePoint os A path st with
  | (some buffer, st) => do
    let reparse_tag ← readU32 buffer off_ReparseTag
    let ReparseDataLength ← readU16 buffer off_ReparseDataLength
    let raw_data := vector_resize raw_data ReparseDataLength
    let raw_data ← memcpy raw_data 0 (buffer.drop off_DataBuffer) ReparseDataLength
    pure (some (reparse_tag, raw_data), st)
  | (none, st) => pure (none, st)

/-! ## Fields of a record -/

/-- The 16-bit number stored at byte offset `off`. -/
def field16 (buf : List BYTE) (off : Nat) : Nat := fromLe (slice buf off 2)

/-- The 32-bit number stored at byte offset `off`. -/
def field32 (buf : List BYTE) (off : Nat) : Nat := fromLe (slice buf off 4)

/-- Whether loading `count` code units at byte offset `off` stays inside the buffer. -/
def inBounds (buf : List BYTE) (off count : Nat) : Prop :=
  count = 0 ∨ off + 2 * count ≤ buf.length

instance (buf : List BYTE) (off count : Nat) : Decidable (inBounds buf off count) := by
  unfold inBounds; infer_instance

/-- A mount-point record: the 16 bytes of the fixed fields, then `PathBuffer`. -/
def mountPointRecord (dataLength so sl po pl : Nat) (PathBuffer : List BYTE) : List BYTE :=
  le32 IO_REPARSE_TAG_MOUNT_POINT ++ (le16 dataLength ++ (le16 0 ++ (le16 so ++ (le16 sl ++
    (le16 po ++ (le16 pl ++ PathBuffer))))))

/-- A symbolic-link record: the 20 bytes of the fixed fields, then `PathBuffer`. -/
def symlinkRecord (dataLength so sl po pl flags : Nat) (PathBuffer : List BYTE) : List BYTE :=
  le32 IO_REPARSE_TAG_SYMLINK ++ (le16 dataLength ++ (le16 0 ++ (le16 so ++ (le16 sl ++
    (le16 po ++ (le16 pl ++ (le32 flags ++ PathBuffer)))))))

/-- The buffer with the bytes `w` inserted before byte offset `off`. -/
def insertAt (buf : List BYTE) (off : Nat) (w : List BYTE) : List BYTE :=
  buf.take off ++ w ++ buf.drop off

/-- An operating system that opens every path as handle 5 and lets every call succeed;
the handle 0 alone is invalid. -/
def permissiveOs : Os where
  CreateFileW := fun _ _ _ => 5
  INVALID_HANDLE_VALUE := 0
  IsValid := fun h => h != 0
  SetReparsePoint := fun _ _ _ => true
  DeleteReparsePoint := fun _ _ _ => true
  GetReparsePoint := fun _ _ _ => none
  GetLastError := fun _ => 0

/-- An operating system that opens every path as handle 5 and answers every
get-reparse-point call with the bytes `data`; the handle 0 alone is invalid. -/
def replayOs (data : List BYTE) : Os where
  CreateFileW := fun _ _ _ => 5
  INVALID_HANDLE_VALUE := 0
  IsValid := fun h => h != 0
  SetReparsePoint := fun _ _ _ => true
  DeleteReparsePoint := fun _ _ _ => true
  GetReparsePoint := fun _ _ _ => some data
  GetLastError := fun _ => 0

/-- State after `path` has been opened for reading and one get-reparse-point call with an
output buffer of `size` bytes has returned `TRUE`. -/
def stateAfterGet (os : Os) (path : wstring) (size : Nat) (st : State) : State :=
  let (handle, st) := OpenReparsePoint os path false st
  { st with calls := st.calls ++ [OsCall.GET_REPARSE_POINT handle size] }

/-- The record `BuildMountPoint` returns for the target `AB` and the print name `C`. -/
def sampleMountPoint : List BYTE :=
  [3, 0, 0, 0xA0, 18, 0, 0, 0, 0, 0, 4, 0, 6, 0, 2, 0, 65, 0, 66, 0, 0, 0, 67, 0, 0, 0]

/-- The record `BuildSymlink` returns for the target `a`, the empty print name and
`relative = true`. -/
def sampleSymlink : List BYTE :=
  [12, 0, 0, 0xA0, 18, 0, 0, 0, 0, 0, 2, 0, 4, 0, 0, 0, 1, 0, 0, 0, 97, 0, 0, 0, 0, 0]

/-- The record `CreateRawMountPoint` builds for the tag `0x12345678` and the bytes 1, 2, 3. -/
def sampleRaw : List BYTE := [0x78, 0x56, 0x34, 0x12, 3, 0, 0, 0, 1, 2, 3]

/-- A mount-point record whose substitute name (`AB`) starts at offset 2 of the path buffer
and whose print name (`B`, at offset 4) lies inside the substitute name. -/
def sampleOverlap : List BYTE :=
  [3, 0, 0, 0xA0, 14, 0, 0, 0, 2, 0, 4, 0, 4, 0, 2, 0, 67, 0, 65, 0, 66, 0]

/-- A mount-point record of 20 bytes that declares a substitute name of 8 bytes at offset 0
of its 4-byte path buffer. -/
def sampleOverrun : List BYTE :=
  [3, 0, 0, 0xA0, 12, 0, 0, 0, 0, 0, 8, 0, 0, 0, 0, 0, 65, 0, 66, 0]

/-! ## Unchecked loads -/

/-- The bytes that follow a buffer in memory: `beyond i` is the byte found `i` bytes past
its end. -/
abbrev Beyond := Nat → BYTE

/-- The byte at offset `i` from the start of a buffer, inside it or past its end. -/
def byteAt (beyond : Beyond) (buf : List BYTE) (i : Nat) : BYTE :=
  match buf[i]? with
  | some b => b
  | none => beyond (i - buf.length)

/-- Load of `n` bytes at byte offset `off` as the machine performs it: nothing is checked,
and a load past the end of the buffer delivers the bytes that follow it. -/
def loadBytes (beyond : Beyond) (buf : List BYTE) (off : Nat) : Nat → List BYTE
  | 0 => []
  | n + 1 => byteAt beyond buf off :: loadBytes beyond buf (off + 1) n

/-- The decode of `ReadMountPoint` with unchecked loads: `none` is the result `false`,
`some (target, printname)` the result `true`. -/
def ReadMountPoint_decode_unchecked (beyond : Beyond) (buffer : List BYTE) :
    Option (wstring × wstring) :=
  let ReparseTag := fromLe (loadBytes beyond buffer off_ReparseTag 4)
  if ReparseTag = IO_REPARSE_TAG_MOUNT_POINT then
    let SubstituteNameOffset := fromLe (loadBytes beyond buffer off_SubstituteNameOffset 2)
    let target_name := off_MountPoint_PathBuffer + 2 * (SubstituteNameOffset / 2)
    let PrintNameOffset := fromLe (loadBytes beyond buffer off_PrintNameOffset 2)
    let display_name := off_MountPoint_PathBuffer + 2 * (PrintNameOffset / 2)
    let SubstituteNameLength := fromLe (loadBytes beyond buffer off_SubstituteNameLength 2)
    let target := wchars (loadBytes beyond buffer target_name (2 * (SubstituteNameLength / 2)))
    let PrintNameLength := fromLe (loadBytes beyond buffer off_PrintNameLength 2)
    let printname := wchars (loadBytes beyond buffer display_name (2 * (PrintNameLength / 2)))
    some (target, printname)
  else none

/-- The decode of `ReadSymlink` with unchecked loads: `none` is the result `false`,
`some (target, printname, flags)` the result `true`. -/
def ReadSymlink_decode_unchecked (beyond : Beyond) (buffer : List BYTE) :
    Option (wstring × wstring × Nat) :=
  let ReparseTag := fromLe (loadBytes beyond buffer off_ReparseTag 4)
  if ReparseTag = IO_REPARSE_TAG_SYMLINK then
    let SubstituteNameOffset := fromLe (loadBytes beyond buffer off_SubstituteNameOffset 2)
    let target_name := off_Symlink_PathBuffer + 2 * (SubstituteNameOffset / 2)
    let PrintNameOffset := fromLe (loadBytes beyond buffer off_PrintNameOffset 2)
    let display_name := off_Symlink_PathBuffer + 2 * (PrintNameOffset / 2)
    let SubstituteNameLength := fromLe (loadBytes beyond buffer off_SubstituteNameLength 2)
    let target := wchars (loadBytes beyond buffer target_name (2 * (SubstituteNameLength / 2)))
    let PrintNameLength := fromLe (loadBytes beyond buffer off_PrintNameLength 2)
    let printname := wchars (loadBytes beyond buffer display_name (2 * (PrintNameLength / 2)))
    let Flags := fromLe (loadBytes beyond buffer off_Symlink_Flags 4)
    some (target, printname, Flags)
  else none

/-- The method `ReparsePoint::ReadMountPoint` as the machine runs it, with unchecked loads:
what it returns when `beyond` are the bytes that follow its buffer. -/
def ReadMountPoint_unchecked (os : Os) (A : typed_buffer_alloc) (beyond : Beyond)
    (path : wstring) (st : State) : Option (wstring × wstring) × State :=
  match ReadReparsePoint os A path st with
  | (none, st) => (none, st)
  | (some buffer, st) => (ReadMountPoint_decode_unchecked beyond buffer, st)

/-- The method `ReparsePoint::ReadSymlink` as the machine runs it, with unchecked loads. -/
def ReadSymlink_unchecked (os : Os) (A : typed_buffer_alloc) (beyond : Beyond)
    (path : wstring) (st : State) : Option (wstring × wstring × Nat) × State :=
  match ReadReparsePoint os A path st with
  | (none, st) => (none, st)
  | (some buffer, st) => (ReadSymlink_decode_unchecked beyond buffer, st)

/-- The buffer `GetReparsePointData` returns when the system call stores `record`: 16 KiB
that start with the record. -/
def reparsePointData (A : typed_buffer_alloc) (record : List BYTE) : List BYTE :=
  writeAt (A.init MAXIMUM_REPARSE_DATA_BUFFER_SIZE) 0
    (record.take (A.init MAXIMUM_REPARSE_DATA_BUFFER_SIZE).length)

/-- A mount-point record of 20 bytes that declares a substitute name of 65534 bytes. -/
def sampleHuge : List BYTE :=
  [3, 0, 0, 0xA0, 12, 0, 0, 0, 0, 0, 0xFE, 0xFF, 0, 0, 0, 0, 65, 0, 66, 0]

/-- A mount-point record cut after its 8-byte header. -/
def sampleHeaderOnly : List BYTE := [3, 0, 0, 0xA0, 12, 0, 0, 0]

/-- A symlink record of 24 bytes that declares a substitute name of 8 bytes at offset 0 of
its 4-byte path buffer. -/
def sampleSymlinkOverrun : List BYTE :=
  [12, 0, 0, 0xA0, 16, 0, 0, 0, 0, 0, 8, 0, 0, 0, 0, 0, 0, 0, 0, 0, 65, 0, 66, 0]

/-! ## Lemmas on memory -/

@[simp] theorem Mem.done_bind {α β : Type} (a : α) (f : α → Mem β) :
    (Mem.done a >>= f) = f a := rfl

@[simp] theorem Mem.outOfBounds_bind {α β : Type} (f : α → Mem β) :
    ((Mem.outOfBounds : Mem α) >>= f) = Mem.outOfBounds := rfl

@[simp] theorem Mem.pure_eq {α : Type} (a : α) : (pure a : Mem α) = Mem.done a := rfl

@[simp] theorem length_le16 (v : Nat) : (le16 v).length = 2 := rfl

@[simp] theorem length_le32 (v : Nat) : (le32 v).length = 4 := rfl

@[simp] theorem length_wbytes (s : List WCHAR) : (wbytes s).length = 2 * s.length := by
  induction s with
  | nil => rfl
  | cons c s ih => simp [wbytes, ih]; omega

theorem wbytes_append (s r : List WCHAR) : wbytes (s ++ r) = wbytes s ++ wbytes r := by
  induction s with
  | nil => rfl
  | cons c s ih => simp [wbytes, ih]

theorem wbytes_c_str (s : wstring) : wbytes (c_str s) = wbytes s ++ [0, 0] := by
  rw [c_str, wbytes_append]; rfl

theorem length_writeAt (buf : List BYTE) (off : Nat) (w : List BYTE)
    (h : off + w.length ≤ buf.length) : (writeAt buf off w).length = buf.length := by
  simp [writeAt]; omega

theorem slice_writeAt_same (buf : List BYTE) (off : Nat) (w : List BYTE)
    (h : off + w.length ≤ buf.length) : slice (writeAt buf off w) off w.length = w := by
  unfold slice writeAt
  have h1 : (List.take off buf).length = off := by simp; omega
  rw [List.append_assoc, List.drop_append_eq_append_drop, h1]
  simp [List.drop_eq_nil_of_le, h1]

theorem slice_writeAt_before (buf : List BYTE) (off : Nat) (w : List BYTE) (o n : Nat)
    (h : o + n ≤ off) (hb : off + w.length ≤ buf.length) :
    slice (writeAt buf off w) o n = slice buf o n := by
  unfold slice writeAt
  rw [List.take_drop, List.take_drop, List.append_assoc]
  congr 1
  rw [List.take_append_of_le_length (by simp; omega), List.take_take]
  congr 1; omega

theorem slice_writeAt_after (buf : List BYTE) (off : Nat) (w : List BYTE) (o n : Nat)
    (h : off + w.length ≤ o) (hb : off + w.length ≤ buf.length) :
    slice (writeAt buf off w) o n = slice buf o n := by
  unfold slice writeAt
  congr 1
  have h1 : (List.take off buf ++ w).length = off + w.length := by simp; omega
  rw [List.drop_append_eq_append_drop, h1, List.drop_eq_nil_of_le (by omega), List.drop_drop]
  simp
  congr 1; omega

/-- What one in-bounds store does: it succeeds, keeps the size, holds the stored bytes
and leaves every disjoint range as it was. -/
theorem writeBytes_step (buf : List BYTE) (off : Nat) (w : List BYTE) (n : Nat)
    (hn : w.length = n) (h : off + n ≤ buf.length) :
    ∃ out, writeBytes buf off w = Mem.done out ∧ out.length = buf.length ∧
      slice out off n = w ∧
      ∀ o k, (o + k ≤ off ∨ off + n ≤ o) → slice out o k = slice buf o k := by
  subst hn
  refine ⟨writeAt buf off w, ?_, length_writeAt buf off w h, slice_writeAt_same buf off w h, ?_⟩
  · simp [writeBytes, h]
  · intro o k hd
    rcases hd with hd | hd
    · exact slice_writeAt_before buf off w o k hd h
    · exact slice_writeAt_after buf off w o k hd h

theorem memcpy_all (dst : List BYTE) (off : Nat) (src : List BYTE) (n : Nat)
    (hn : src.length = n) : memcpy dst off src n = writeBytes dst off src := by
  subst hn
  simp [memcpy, readBytes, slice]

theorem drop_eq_slice_append (l : List BYTE) (o n : Nat) (rest : List BYTE)
    (h : l.drop (o + n) = rest) : l.drop o = slice l o n ++ rest := by
  subst h
  rw [slice, ← List.drop_drop, List.take_append_drop]

theorem drop_eq_slice (l : List BYTE) (o n : Nat) (h : l.length ≤ o + n) :
    l.drop o = slice l o n := by
  rw [slice, List.take_of_length_le]
  simp; omega


/-- Image of `BuildMountPoint`, field by field in address order. -/
theorem BuildMountPoint_eq (A : typed_buffer_alloc) (T P : wstring) :
    BuildMountPoint A T P = Mem.done
      (le32 IO_REPARSE_TAG_MOUNT_POINT ++ (le16 (USHORT (T.length * 2 + P.length * 2 + 8 + 4)) ++
        (le16 0 ++ (le16 0 ++ (le16 (USHORT (T.length * 2)) ++
        (le16 (USHORT (T.length * 2 + 2)) ++ (le16 (USHORT (P.length * 2)) ++
        ((wbytes T ++ [0, 0]) ++ (wbytes P ++ [0, 0]))))))))) := by
  have hM := A.size_init (T.length * 2 + P.length * 2 + 8 + 4 + REPARSE_DATA_BUFFER_HEADER_LENGTH)
  simp only [REPARSE_DATA_BUFFER_HEADER_LENGTH] at hM
  obtain ⟨b1, e1, l1, s1, f1⟩ := writeBytes_step _ 0 (le32 IO_REPARSE_TAG_MOUNT_POINT) 4 rfl
    (by omega : 0 + 4 ≤ (A.init (T.length * 2 + P.length * 2 + 8 + 4 + 8)).length)
  obtain ⟨b2, e2, l2, s2, f2⟩ := writeBytes_step b1 4
    (le16 (USHORT (T.length * 2 + P.length * 2 + 8 + 4))) 2 rfl (by omega)
  obtain ⟨b3, e3, l3, s3, f3⟩ := writeBytes_step b2 6 (le16 0) 2 rfl (by omega)
  obtain ⟨b4, e4, l4, s4, f4⟩ := writeBytes_step b3 8 (le16 0) 2 rfl (by omega)
  obtain ⟨b5, e5, l5, s5, f5⟩ := writeBytes_step b4 10 (le16 (USHORT (T.length * 2))) 2 rfl
    (by omega)
  obtain ⟨b6, e6, l6, s6, f6⟩ := writeBytes_step b5 16 (wbytes T ++ [0, 0]) (T.length * 2 + 2)
    (by simp; omega) (by omega)
  obtain ⟨b7, e7, l7, s7, f7⟩ := writeBytes_step b6 12 (le16 (USHORT (T.length * 2 + 2))) 2 rfl
    (by omega)
  obtain ⟨b8, e8, l8, s8, f8⟩ := writeBytes_step b7 14 (le16 (USHORT (P.length * 2))) 2 rfl
    (by omega)
  obtain ⟨b9, e9, l9, s9, f9⟩ := writeBytes_step b8 (16 + 2 * (T.length + 1))
    (wbytes P ++ [0, 0]) (P.length * 2 + 2) (by simp; omega) (by omega)
  have hrun : BuildMountPoint A T P = Mem.done b9 := by
    simp only [BuildMountPoint, writeU32, writeU16, REPARSE_DATA_BUFFER_HEADER_LENGTH,
      off_ReparseTag, off_ReparseDataLength, off_Reserved, off_SubstituteNameOffset,
      off_SubstituteNameLength, off_PrintNameOffset, off_PrintNameLength,
      off_MountPoint_PathBuffer, wbytes_c_str]
    have m1 : ∀ d off, memcpy d off (wbytes T ++ [0, 0]) (T.length * 2 + 2) =
        writeBytes d off (wbytes T ++ [0, 0]) :=
      fun d off => memcpy_all d off _ _ (by simp; omega)
    have m2 : ∀ d off, memcpy d off (wbytes P ++ [0, 0]) (P.length * 2 + 2) =
        writeBytes d off (wbytes P ++ [0, 0]) :=
      fun d off => memcpy_all d off _ _ (by simp; omega)
    simp only [m1, m2, e1, e2, e3, e4, e5, e6, e7, e8, e9, Mem.done_bind, Mem.pure_eq]
  rw [hrun]
  congr 1
  have cover : b9 = slice b9 0 4 ++ (slice b9 4 2 ++ (slice b9 6 2 ++ (slice b9 8 2 ++
      (slice b9 10 2 ++ (slice b9 12 2 ++ (slice b9 14 2 ++ (slice b9 16 (T.length * 2 + 2) ++
      slice b9 (16 + 2 * (T.length + 1)) (P.length * 2 + 2)))))))) := by
    show b9.drop 0 = _
    refine drop_eq_slice_append _ 0 4 _ (drop_eq_slice_append _ 4 2 _
      (drop_eq_slice_append _ 6 2 _ (drop_eq_slice_append _ 8 2 _
      (drop_eq_slice_append _ 10 2 _ (drop_eq_slice_append _ 12 2 _
      (drop_eq_slice_append _ 14 2 _ (drop_eq_slice_append _ 16 (T.length * 2 + 2) _ ?_)))))))
    rw [show 16 + (T.length * 2 + 2) = 16 + 2 * (T.length + 1) by omega]
    exact drop_eq_slice _ _ _ (by omega)
  rw [cover]
  simp (disch := omega) only [f9, f8, f7, f6, f5, f4, f3, f2, f1, s1, s2, s3, s4, s5, s6, s7,
    s8, s9]


/-- Image of `BuildSymlink`, field by field in address order. -/
theorem BuildSymlink_eq (A : typed_buffer_alloc) (T P : wstring) (relative : Bool) :
    BuildSymlink A T P relative = Mem.done
      (le32 IO_REPARSE_TAG_SYMLINK ++ (le16 (USHORT (T.length * 2 + P.length * 2 + 12 + 4)) ++
        (le16 0 ++ (le16 0 ++ (le16 (USHORT (T.length * 2)) ++
        (le16 (USHORT (T.length * 2 + 2)) ++ (le16 (USHORT (P.length * 2)) ++
        (le32 (if relative then SYMLINK_FLAG_RELATIVE else 0) ++
        ((wbytes T ++ [0, 0]) ++ (wbytes P ++ [0, 0])))))))))) := by
  have hM := A.size_init (T.length * 2 + P.length * 2 + 12 + 4 + REPARSE_DATA_BUFFER_HEADER_LENGTH)
  simp only [REPARSE_DATA_BUFFER_HEADER_LENGTH] at hM
  obtain ⟨b1, e1, l1, s1, f1⟩ := writeBytes_step _ 0 (le32 IO_REPARSE_TAG_SYMLINK) 4 rfl
    (by omega : 0 + 4 ≤ (A.init (T.length * 2 + P.length * 2 + 12 + 4 + 8)).length)
  obtain ⟨b2, e2, l2, s2, f2⟩ := writeBytes_step b1 4
    (le16 (USHORT (T.length * 2 + P.length * 2 + 12 + 4))) 2 rfl (by omega)
  obtain ⟨b3, e3, l3, s3, f3⟩ := writeBytes_step b2 6 (le16 0) 2 rfl (by omega)
  obtain ⟨b4, e4, l4, s4, f4⟩ := writeBytes_step b3 8 (le16 0) 2 rfl (by omega)
  obtain ⟨b5, e5, l5, s5, f5⟩ := writeBytes_step b4 10 (le16 (USHORT (T.length * 2))) 2 rfl
    (by omega)
  obtain ⟨b6, e6, l6, s6, f6⟩ := writeBytes_step b5 20 (wbytes T ++ [0, 0]) (T.length * 2 + 2)
    (by simp; omega) (by omega)
  obtain ⟨b7, e7, l7, s7, f7⟩ := writeBytes_step b6 12 (le16 (USHORT (T.length * 2 + 2))) 2 rfl
    (by omega)
  obtain ⟨b8, e8, l8, s8, f8⟩ := writeBytes_step b7 14 (le16 (USHORT (P.length * 2))) 2 rfl
    (by omega)
  obtain ⟨b9, e9, l9, s9, f9⟩ := writeBytes_step b8 (20 + 2 * (T.length + 1))
    (wbytes P ++ [0, 0]) (P.length * 2 + 2) (by simp; omega) (by omega)
  obtain ⟨b10, e10, l10, s10, f10⟩ := writeBytes_step b9 16
    (le32 (if relative then SYMLINK_FLAG_RELATIVE else 0)) 4 rfl (by omega)
  have hrun : BuildSymlink A T P relative = Mem.done b10 := by
    simp only [BuildSymlink, writeU32, writeU16, REPARSE_DATA_BUFFER_HEADER_LENGTH,
      off_ReparseTag, off_ReparseDataLength, off_Reserved, off_SubstituteNameOffset,
      off_SubstituteNameLength, off_PrintNameOffset, off_PrintNameLength,
      off_Symlink_PathBuffer, off_Symlink_Flags, wbytes_c_str]
    have m1 : ∀ d off, memcpy d off (wbytes T ++ [0, 0]) (T.length * 2 + 2) =
        writeBytes d off (wbytes T ++ [0, 0]) :=
      fun d off => memcpy_all d off _ _ (by simp; omega)
    have m2 : ∀ d off, memcpy d off (wbytes P ++ [0, 0]) (P.length * 2 + 2) =
        writeBytes d off (wbytes P ++ [0, 0]) :=
      fun d off => memcpy_all d off _ _ (by simp; omega)
    simp only [m1, m2, e1, e2, e3, e4, e5, e6, e7, e8, e9, e10, Mem.done_bind, Mem.pure_eq]
  rw [hrun]
  congr 1
  have cover : b10 = slice b10 0 4 ++ (slice b10 4 2 ++ (slice b10 6 2 ++ (slice b10 8 2 ++
      (slice b10 10 2 ++ (slice b10 12 2 ++ (slice b10 14 2 ++ (slice b10 16 4 ++
      (slice b10 20 (T.length * 2 + 2) ++
      slice b10 (20 + 2 * (T.length + 1)) (P.length * 2 + 2))))))))) := by
    show b10.drop 0 = _
    refine drop_eq_slice_append _ 0 4 _ (drop_eq_slice_append _ 4 2 _
      (drop_eq_slice_append _ 6 2 _ (drop_eq_slice_append _ 8 2 _
      (drop_eq_slice_append _ 10 2 _ (drop_eq_slice_append _ 12 2 _
      (drop_eq_slice_append _ 14 2 _ (drop_eq_slice_append _ 16 4 _
      (drop_eq_slice_append _ 20 (T.length * 2 + 2) _ ?_))))))))
    rw [show 20 + (T.length * 2 + 2) = 20 + 2 * (T.length + 1) by omega]
    exact drop_eq_slice _ _ _ (by omega)
  rw [cover]
  simp (disch := omega) only [f10, f9, f8, f7, f6, f5, f4, f3, f2, f1, s1, s2, s3, s4, s5, s6,
    s7, s8, s9, s10]

/-- Image of the record `CreateRawMountPoint` builds. -/
theorem CreateRawMountPoint_buffer_eq (A : typed_buffer_alloc) (tag : Nat) (data : List BYTE) :
    CreateRawMountPoint_buffer A tag data = Mem.done
      (le32 tag ++ (le16 (USHORT data.length) ++ (le16 0 ++ data))) := by
  have hM := A.size_init (8 + data.length)
  obtain ⟨b1, e1, l1, s1, f1⟩ := writeBytes_step _ 0 (le32 tag) 4 rfl
    (by omega : 0 + 4 ≤ (A.init (8 + data.length)).length)
  obtain ⟨b2, e2, l2, s2, f2⟩ := writeBytes_step b1 4 (le16 (USHORT data.length)) 2 rfl
    (by omega)
  obtain ⟨b3, e3, l3, s3, f3⟩ := writeBytes_step b2 6 (le16 0) 2 rfl (by omega)
  obtain ⟨b4, e4, l4, s4, f4⟩ := writeBytes_step b3 8 data data.length rfl (by omega)
  have hrun : CreateRawMountPoint_buffer A tag data = Mem.done b4 := by
    simp only [CreateRawMountPoint_buffer, writeU32, writeU16, off_ReparseTag,
      off_ReparseDataLength, off_Reserved, off_DataBuffer, memcpy_all _ _ data _ rfl,
      e1, e2, e3, e4, Mem.done_bind, Mem.pure_eq]
  rw [hrun]
  congr 1
  have cover : b4 = slice b4 0 4 ++ (slice b4 4 2 ++ (slice b4 6 2 ++
      slice b4 8 data.length)) := by
    show b4.drop 0 = _
    refine drop_eq_slice_append _ 0 4 _ (drop_eq_slice_append _ 4 2 _
      (drop_eq_slice_append _ 6 2 _ ?_))
    exact drop_eq_slice _ _ _ (by omega)
  rw [cover]
  simp (disch := omega) only [f4, f3, f2, f1, s1, s2, s3, s4]

/-! ## Lemmas on loads -/

theorem USHORT_of_lt (n : Nat) (h : n < 65536) : USHORT n = n := Nat.mod_eq_of_lt h

theorem fromLe_le16 (v : Nat) : fromLe (le16 v) = v % 65536 := by
  simp only [fromLe, le16, byteOf]; omega

theorem fromLe_le32 (v : Nat) : fromLe (le32 v) = v % 4294967296 := by
  simp only [fromLe, le32, byteOf]; omega

theorem wchars_wbytes (s : List WCHAR) : wchars (wbytes s) = s := by
  induction s with
  | nil => rfl
  | cons c s ih =>
    simp only [wbytes, wchars, ih, byteOf]
    congr 1
    apply Fin.ext
    have := c.isLt
    simp only
    omega

theorem slice_append_right (a b : List BYTE) (o n : Nat) (h : a.length ≤ o) :
    slice (a ++ b) o n = slice b (o - a.length) n := by
  unfold slice
  rw [List.drop_append_eq_append_drop, List.drop_eq_nil_of_le h, List.nil_append]

theorem slice_append_left (a b : List BYTE) (n : Nat) (h : a.length = n) :
    slice (a ++ b) 0 n = a := by
  subst h
  simp [slice]

theorem length_slice (buf : List BYTE) (off n : Nat) (h : off + n ≤ buf.length) :
    (slice buf off n).length = n := by
  simp [slice]; omega

theorem readBytes_eq (buf : List BYTE) (off n : Nat) (h : n = 0 ∨ off + n ≤ buf.length) :
    readBytes buf off n = Mem.done (slice buf off n) := by
  simp [readBytes, h]

theorem readU16_eq (buf : List BYTE) (off : Nat) (h : off + 2 ≤ buf.length) :
    readU16 buf off = Mem.done (field16 buf off) := by
  simp [readU16, readBytes, h, field16]

theorem readU16_oob (buf : List BYTE) (off : Nat) (h : buf.length < off + 2) :
    readU16 buf off = Mem.outOfBounds := by
  have : ¬ (off + 2 ≤ buf.length) := by omega
  simp [readU16, readBytes, this]

theorem readU32_eq (buf : List BYTE) (off : Nat) (h : off + 4 ≤ buf.length) :
    readU32 buf off = Mem.done (field32 buf off) := by
  simp [readU32, readBytes, h, field32]

theorem readU32_oob (buf : List BYTE) (off : Nat) (h : buf.length < off + 4) :
    readU32 buf off = Mem.outOfBounds := by
  have : ¬ (off + 4 ≤ buf.length) := by omega
  simp [readU32, readBytes, this]

theorem readWString_eq (buf : List BYTE) (off count : Nat) (h : inBounds buf off count) :
    readWString buf off count = Mem.done (wchars (slice buf off (2 * count))) := by
  unfold inBounds at h
  simp [readWString, readBytes, h]

theorem readWString_oob (buf : List BYTE) (off count : Nat) (h : ¬ inBounds buf off count) :
    readWString buf off count = Mem.outOfBounds := by
  unfold inBounds at h
  simp [readWString, readBytes, h]

/-- The decode of `ReadMountPoint` on a buffer that holds the fixed fields and the
mount-point tag: two unchecked string loads at the declared offsets. -/
theorem ReadMountPoint_decode_eq (buf : List BYTE) (h16 : 16 ≤ buf.length)
    (htag : field32 buf 0 = IO_REPARSE_TAG_MOUNT_POINT) :
    ReadMountPoint_decode buf =
      (readWString buf (16 + 2 * (field16 buf 8 / 2)) (field16 buf 10 / 2) >>= fun target =>
        readWString buf (16 + 2 * (field16 buf 12 / 2)) (field16 buf 14 / 2) >>= fun printname =>
          Mem.done (some (target, printname))) := by
  simp only [ReadMountPoint_decode, off_ReparseTag, off_SubstituteNameOffset,
    off_SubstituteNameLength, off_PrintNameOffset, off_PrintNameLength,
    off_MountPoint_PathBuffer]
  rw [readU32_eq buf 0 (by omega), readU16_eq buf 8 (by omega), readU16_eq buf 10 (by omega),
    readU16_eq buf 12 (by omega), readU16_eq buf 14 (by omega)]
  simp [htag]

/-- The decode of `ReadSymlink` on a buffer that holds the fixed fields and the symlink
tag: two unchecked string loads at the declared offsets, then the flags. -/
theorem ReadSymlink_decode_eq (buf : List BYTE) (h20 : 20 ≤ buf.length)
    (htag : field32 buf 0 = IO_REPARSE_TAG_SYMLINK) :
    ReadSymlink_decode buf =
      (readWString buf (20 + 2 * (field16 buf 8 / 2)) (field16 buf 10 / 2) >>= fun target =>
        readWString buf (20 + 2 * (field16 buf 12 / 2)) (field16 buf 14 / 2) >>= fun printname =>
          Mem.done (some (target, printname, field32 buf 16))) := by
  simp only [ReadSymlink_decode, off_ReparseTag, off_SubstituteNameOffset,
    off_SubstituteNameLength, off_PrintNameOffset, off_PrintNameLength,
    off_Symlink_PathBuffer, off_Symlink_Flags]
  rw [readU32_eq buf 0 (by omega), readU16_eq buf 8 (by omega), readU16_eq buf 10 (by omega),
    readU16_eq buf 12 (by omega), readU16_eq buf 14 (by omega), readU32_eq buf 16 (by omega)]
  simp [htag]

/-! ## Records -/

@[simp] theorem length_mountPointRecord (d so sl po pl : Nat) (pb : List BYTE) :
    (mountPointRecord d so sl po pl pb).length = 16 + pb.length := by
  simp [mountPointRecord]; omega

@[simp] theorem length_symlinkRecord (d so sl po pl fl : Nat) (pb : List BYTE) :
    (symlinkRecord d so sl po pl fl pb).length = 20 + pb.length := by
  simp [symlinkRecord]; omega

theorem mountPointRecord_fields (d so sl po pl : Nat) (pb : List BYTE) :
    field32 (mountPointRecord d so sl po pl pb) 0 = IO_REPARSE_TAG_MOUNT_POINT ∧
    field16 (mountPointRecord d so sl po pl pb) 4 = d % 65536 ∧
    field16 (mountPointRecord d so sl po pl pb) 8 = so % 65536 ∧
    field16 (mountPointRecord d so sl po pl pb) 10 = sl % 65536 ∧
    field16 (mountPointRecord d so sl po pl pb) 12 = po % 65536 ∧
    field16 (mountPointRecord d so sl po pl pb) 14 = pl % 65536 := by
  simp (disch := simp) [mountPointRecord, field16, field32, slice_append_right,
    slice_append_left, fromLe_le16, fromLe_le32, IO_REPARSE_TAG_MOUNT_POINT]

theorem symlinkRecord_fields (d so sl po pl fl : Nat) (pb : List BYTE) :
    field32 (symlinkRecord d so sl po pl fl pb) 0 = IO_REPARSE_TAG_SYMLINK ∧
    field16 (symlinkRecord d so sl po pl fl pb) 4 = d % 65536 ∧
    field16 (symlinkRecord d so sl po pl fl pb) 8 = so % 65536 ∧
    field16 (symlinkRecord d so sl po pl fl pb) 10 = sl % 65536 ∧
    field16 (symlinkRecord d so sl po pl fl pb) 12 = po % 65536 ∧
    field16 (symlinkRecord d so sl po pl fl pb) 14 = pl % 65536 ∧
    field32 (symlinkRecord d so sl po pl fl pb) 16 = fl % 4294967296 := by
  simp (disch := simp) [symlinkRecord, field16, field32, slice_append_right,
    slice_append_left, fromLe_le16, fromLe_le32, IO_REPARSE_TAG_SYMLINK]

theorem mountPointRecord_split (d so sl po pl : Nat) (pb : List BYTE) :
    ∃ hdr : List BYTE, hdr.length = 16 ∧ mountPointRecord d so sl po pl pb = hdr ++ pb :=
  ⟨le32 IO_REPARSE_TAG_MOUNT_POINT ++ (le16 d ++ (le16 0 ++ (le16 so ++ (le16 sl ++
    (le16 po ++ le16 pl))))), by simp, by simp [mountPointRecord]⟩

theorem symlinkRecord_split (d so sl po pl fl : Nat) (pb : List BYTE) :
    ∃ hdr : List BYTE, hdr.length = 20 ∧ symlinkRecord d so sl po pl fl pb = hdr ++ pb :=
  ⟨le32 IO_REPARSE_TAG_SYMLINK ++ (le16 d ++ (le16 0 ++ (le16 so ++ (le16 sl ++
    (le16 po ++ (le16 pl ++ le32 fl)))))), by simp, by simp [symlinkRecord]⟩

/-- A string load past a block of `k` bytes is the load in what follows the block. -/
theorem readWString_append (hdr pb : List BYTE) (k o count : Nat) (hk : hdr.length = k) :
    readWString (hdr ++ pb) (k + o) count = readWString pb o count := by
  subst hk
  simp only [readWString, readBytes, slice_append_right hdr pb _ _ (Nat.le_add_right _ _),
    List.length_append, Nat.add_sub_cancel_left]
  have : (hdr.length + o + 2 * count ≤ hdr.length + pb.length) ↔ (o + 2 * count ≤ pb.length) := by
    omega
  simp only [this]

/-- The two strings of a path buffer laid out by the encoders, with any two bytes `x1` in
the place of the first terminator and any bytes `x2` after the print name. -/
theorem readWString_pathBuffer (T P : wstring) (x1 x2 : List BYTE) (hx1 : x1.length = 2) :
    readWString ((wbytes T ++ x1) ++ (wbytes P ++ x2)) 0 T.length = Mem.done T ∧
    readWString ((wbytes T ++ x1) ++ (wbytes P ++ x2)) (2 * T.length + 2) P.length =
      Mem.done P := by
  constructor
  · rw [readWString_eq _ _ _ (by unfold inBounds; simp), List.append_assoc,
      slice_append_left _ _ _ (by simp), wchars_wbytes]
  · rw [readWString_eq _ _ _ (by unfold inBounds; simp; omega),
      slice_append_right _ _ _ _ (by simp; omega)]
    have : 2 * T.length + 2 - (wbytes T ++ x1).length = 0 := by simp; omega
    rw [this, slice_append_left _ _ _ (by simp), wchars_wbytes]

/-- The mount-point decode of a record whose four offset and length fields fit 16 bits:
the two strings are loaded from the path buffer. -/
theorem ReadMountPoint_decode_record (d so sl po pl : Nat) (pb : List BYTE)
    (hso : so < 65536) (hsl : sl < 65536) (hpo : po < 65536) (hpl : pl < 65536) :
    ReadMountPoint_decode (mountPointRecord d so sl po pl pb) =
      (readWString pb (2 * (so / 2)) (sl / 2) >>= fun target =>
        readWString pb (2 * (po / 2)) (pl / 2) >>= fun printname =>
          Mem.done (some (target, printname))) := by
  obtain ⟨h0, -, h8, h10, h12, h14⟩ := mountPointRecord_fields d so sl po pl pb
  obtain ⟨hdr, hlen, hsplit⟩ := mountPointRecord_split d so sl po pl pb
  rw [ReadMountPoint_decode_eq _ (by simp) h0, h8, h10, h12, h14, Nat.mod_eq_of_lt hso,
    Nat.mod_eq_of_lt hsl, Nat.mod_eq_of_lt hpo, Nat.mod_eq_of_lt hpl, hsplit,
    readWString_append hdr pb 16 _ _ hlen, readWString_append hdr pb 16 _ _ hlen]

/-- The symlink decode of a record whose fields fit their widths. -/
theorem ReadSymlink_decode_record (d so sl po pl fl : Nat) (pb : List BYTE)
    (hso : so < 65536) (hsl : sl < 65536) (hpo : po < 65536) (hpl : pl < 65536)
    (hfl : fl < 4294967296) :
    ReadSymlink_decode (symlinkRecord d so sl po pl fl pb) =
      (readWString pb (2 * (so / 2)) (sl / 2) >>= fun target =>
        readWString pb (2 * (po / 2)) (pl / 2) >>= fun printname =>
          Mem.done (some (target, printname, fl))) := by
  obtain ⟨h0, -, h8, h10, h12, h14, h16⟩ := symlinkRecord_fields d so sl po pl fl pb
  obtain ⟨hdr, hlen, hsplit⟩ := symlinkRecord_split d so sl po pl fl pb
  rw [ReadSymlink_decode_eq _ (by simp) h0, h8, h10, h12, h14, h16, Nat.mod_eq_of_lt hso,
    Nat.mod_eq_of_lt hsl, Nat.mod_eq_of_lt hpo, Nat.mod_eq_of_lt hpl, Nat.mod_eq_of_lt hfl,
    hsplit, readWString_append hdr pb 20 _ _ hlen, readWString_append hdr pb 20 _ _ hlen]

/-- The record `BuildMountPoint` returns. -/
theorem BuildMountPoint_record (A : typed_buffer_alloc) (T P : wstring) :
    BuildMountPoint A T P = Mem.done
      (mountPointRecord (USHORT (T.length * 2 + P.length * 2 + 8 + 4)) 0 (USHORT (T.length * 2))
        (USHORT (T.length * 2 + 2)) (USHORT (P.length * 2))
        ((wbytes T ++ [0, 0]) ++ (wbytes P ++ [0, 0]))) :=
  BuildMountPoint_eq A T P

/-- The record `BuildSymlink` returns. -/
theorem BuildSymlink_record (A : typed_buffer_alloc) (T P : wstring) (relative : Bool) :
    BuildSymlink A T P relative = Mem.done
      (symlinkRecord (USHORT (T.length * 2 + P.length * 2 + 12 + 4)) 0 (USHORT (T.length * 2))
        (USHORT (T.length * 2 + 2)) (USHORT (P.length * 2))
        (if relative then SYMLINK_FLAG_RELATIVE else 0)
        ((wbytes T ++ [0, 0]) ++ (wbytes P ++ [0, 0]))) :=
  BuildSymlink_eq A T P relative

theorem USHORT_lt (n : Nat) : USHORT n < 65536 := Nat.mod_lt n (by decide)

theorem readWString_zero (buf : List BYTE) (off : Nat) : readWString buf off 0 = Mem.done [] := by
  simp [readWString, readBytes, slice, wchars]

/-- Mount-point round trip whenever the three string fields are stored without truncation. -/
theorem mountPoint_roundtrip (A : typed_buffer_alloc) (T P : wstring)
    (ht : T.length ≤ 32766) (hp : P.length ≤ 32767) :
    ∃ buffer, BuildMountPoint A T P = Mem.done buffer ∧
      ReadMountPoint_decode buffer = Mem.done (some (T, P)) := by
  refine ⟨_, BuildMountPoint_record A T P, ?_⟩
  obtain ⟨hT, hP⟩ := readWString_pathBuffer T P [0, 0] [0, 0] rfl
  rw [ReadMountPoint_decode_record _ _ _ _ _ _ (by decide) (USHORT_lt _) (USHORT_lt _)
    (USHORT_lt _), USHORT_of_lt _ (by omega), USHORT_of_lt _ (by omega),
    USHORT_of_lt _ (by omega)]
  have e1 : T.length * 2 / 2 = T.length := by omega
  have e2 : 2 * ((T.length * 2 + 2) / 2) = 2 * T.length + 2 := by omega
  have e3 : P.length * 2 / 2 = P.length := by omega
  rw [e1, e2, e3]
  simp only [Nat.zero_div, Nat.mul_zero, hT, hP, Mem.done_bind]

/-- Symlink round trip whenever the three string fields are stored without truncation. -/
theorem symlink_roundtrip (A : typed_buffer_alloc) (T P : wstring) (relative : Bool)
    (ht : T.length ≤ 32766) (hp : P.length ≤ 32767) :
    ∃ buffer, BuildSymlink A T P relative = Mem.done buffer ∧
      ReadSymlink_decode buffer =
        Mem.done (some (T, P, if relative then SYMLINK_FLAG_RELATIVE else 0)) := by
  refine ⟨_, BuildSymlink_record A T P relative, ?_⟩
  obtain ⟨hT, hP⟩ := readWString_pathBuffer T P [0, 0] [0, 0] rfl
  rw [ReadSymlink_decode_record _ _ _ _ _ _ _ (by decide) (USHORT_lt _) (USHORT_lt _)
    (USHORT_lt _) (by cases relative <;> decide), USHORT_of_lt _ (by omega),
    USHORT_of_lt _ (by omega), USHORT_of_lt _ (by omega)]
  have e1 : T.length * 2 / 2 = T.length := by omega
  have e2 : 2 * ((T.length * 2 + 2) / 2) = 2 * T.length + 2 := by omega
  have e3 : P.length * 2 / 2 = P.length := by omega
  rw [e1, e2, e3]
  simp only [Nat.zero_div, Nat.mul_zero, hT, hP, Mem.done_bind]

/-- When the target has 32768 code units its length field wraps to zero, and the
mount-point decode returns an empty target. -/
theorem mountPoint_decode_wrapped (A : typed_buffer_alloc) (T : wstring)
    (ht : T.length = 32768) :
    ∃ buffer, BuildMountPoint A T [] = Mem.done buffer ∧
      ReadMountPoint_decode buffer = Mem.done (some ([], [])) := by
  refine ⟨_, BuildMountPoint_record A T [], ?_⟩
  rw [ReadMountPoint_decode_record _ _ _ _ _ _ (by decide) (USHORT_lt _) (USHORT_lt _)
    (USHORT_lt _), ht]
  have e1 : USHORT (32768 * 2) / 2 = 0 := by decide
  have e2 : USHORT (([] : wstring).length * 2) / 2 = 0 := by decide
  rw [e1, e2]
  simp only [readWString_zero, Mem.done_bind]

/-- The same for the symlink encoder. -/
theorem symlink_decode_wrapped (A : typed_buffer_alloc) (T : wstring) (relative : Bool)
    (ht : T.length = 32768) :
    ∃ buffer, BuildSymlink A T [] relative = Mem.done buffer ∧
      ReadSymlink_decode buffer =
        Mem.done (some ([], [], if relative then SYMLINK_FLAG_RELATIVE else 0)) := by
  refine ⟨_, BuildSymlink_record A T [] relative, ?_⟩
  rw [ReadSymlink_decode_record _ _ _ _ _ _ _ (by decide) (USHORT_lt _) (USHORT_lt _)
    (USHORT_lt _) (by cases relative <;> decide), ht]
  have e1 : USHORT (32768 * 2) / 2 = 0 := by decide
  have e2 : USHORT (([] : wstring).length * 2) / 2 = 0 := by decide
  rw [e1, e2]
  simp only [readWString_zero, Mem.done_bind]

/-- Size and data-length field of the record `BuildMountPoint` returns. -/
theorem BuildMountPoint_size (A : typed_buffer_alloc) (T P : wstring) :
    ∃ buffer, BuildMountPoint A T P = Mem.done buffer ∧
      buffer.length = 2 * T.length + 2 * P.length + 20 ∧
      field16 buffer 4 = (2 * T.length + 2 * P.length + 12) % 65536 := by
  refine ⟨_, BuildMountPoint_record A T P, ?_, ?_⟩
  · simp; omega
  · rw [(mountPointRecord_fields _ _ _ _ _ _).2.1, USHORT, Nat.mod_mod]
    congr 1; omega

/-- Size and data-length field of the record `BuildSymlink` returns. -/
theorem BuildSymlink_size (A : typed_buffer_alloc) (T P : wstring) (relative : Bool) :
    ∃ buffer, BuildSymlink A T P relative = Mem.done buffer ∧
      buffer.length = 2 * T.length + 2 * P.length + 24 ∧
      field16 buffer 4 = (2 * T.length + 2 * P.length + 16) % 65536 := by
  refine ⟨_, BuildSymlink_record A T P relative, ?_, ?_⟩
  · simp; omega
  · rw [(symlinkRecord_fields _ _ _ _ _ _ _).2.1, USHORT, Nat.mod_mod]
    congr 1; omega

/-- C1 (amended). Mount-point round trip: for every non-empty `T` of at most 32766 code
units and every `P` of at most 32767 code units (`P` may be empty), `BuildMountPoint`
returns a buffer, and the decode of `ReadMountPoint` applied to it succeeds and yields
exactly `(T, P)`. -/
theorem C1_mount_point_round_trip (A : typed_buffer_alloc) (T P : wstring) (_hT : T ≠ [])
    (ht : T.length ≤ 32766) (hp : P.length ≤ 32767) :
    ∃ buffer, BuildMountPoint A T P = Mem.done buffer ∧
      ReadMountPoint_decode buffer = Mem.done (some (T, P)) :=
  mountPoint_roundtrip A T P ht hp

theorem C1_mount_point_round_trip_witness :
    ([92, 63, 63, 92, 67, 58] : wstring) ≠ [] ∧
    ([92, 63, 63, 92, 67, 58] : wstring).length ≤ 32766 ∧ ([] : wstring).length ≤ 32767 ∧
    ∃ buffer, BuildMountPoint zeroed [92, 63, 63, 92, 67, 58] [] = Mem.done buffer ∧
      ReadMountPoint_decode buffer = Mem.done (some ([92, 63, 63, 92, 67, 58], [])) :=
  ⟨by decide, by decide, by decide,
    C1_mount_point_round_trip zeroed [92, 63, 63, 92, 67, 58] [] (by decide) (by decide)
      (by decide)⟩

/-- C1 as stated, without a bound on the lengths, fails: for the non-empty target of
32768 code units `A` and the empty print name, `SubstituteNameLength` is stored as 0 and
the decode does not yield `(T, P)`. -/
theorem C1_counterexample :
    List.replicate 32768 (65 : WCHAR) ≠ [] ∧
    ¬ ∃ buffer, BuildMountPoint zeroed (List.replicate 32768 65) [] = Mem.done buffer ∧
      ReadMountPoint_decode buffer = Mem.done (some (List.replicate 32768 65, [])) := by
  have hne : List.replicate 32768 (65 : WCHAR) ≠ [] := by
    intro h
    have := congrArg List.length h
    rw [List.length_replicate] at this
    exact absurd this (by decide)
  refine ⟨hne, ?_⟩
  rintro ⟨buffer, hb, hd⟩
  obtain ⟨b, hb', hd'⟩ := mountPoint_decode_wrapped zeroed (List.replicate 32768 65)
    (List.length_replicate _ _)
  rw [hb] at hb'
  cases hb'
  rw [hd] at hd'
  injection hd' with h1
  injection h1 with h2
  injection h2 with h3
  exact hne h3

/-- C2 (amended). Symlink round trip: for every non-empty `T` of at most 32766 code units,
every `P` of at most 32767 code units and both values of `relative`, `BuildSymlink` returns
a buffer, and the decode of `ReadSymlink` applied to it succeeds and yields exactly
`(T, P, flags)` with `flags = 1` if `relative` and `0` otherwise. -/
theorem C2_symlink_round_trip (A : typed_buffer_alloc) (T P : wstring) (relative : Bool)
    (_hT : T ≠ []) (ht : T.length ≤ 32766) (hp : P.length ≤ 32767) :
    ∃ buffer, BuildSymlink A T P relative = Mem.done buffer ∧
      ReadSymlink_decode buffer = Mem.done (some (T, P, if relative then 1 else 0)) :=
  symlink_roundtrip A T P relative ht hp

theorem C2_symlink_round_trip_witness :
    ([46, 46, 92, 97] : wstring) ≠ [] ∧
    ([46, 46, 92, 97] : wstring).length ≤ 32766 ∧ ([97] : wstring).length ≤ 32767 ∧
    ∃ buffer, BuildSymlink zeroed [46, 46, 92, 97] [97] true = Mem.done buffer ∧
      ReadSymlink_decode buffer =
        Mem.done (some ([46, 46, 92, 97], [97], if true then 1 else 0)) :=
  ⟨by decide, by decide, by decide,
    C2_symlink_round_trip zeroed [46, 46, 92, 97] [97] true (by decide) (by decide)
      (by decide)⟩

/-- C2 as stated, without a bound on the lengths, fails: for the non-empty target of
32768 code units, the empty print name and `relative = false`, the symlink decode does
not yield `(T, P, 0)`. -/
theorem C2_counterexample :
    List.replicate 32768 (65 : WCHAR) ≠ [] ∧
    ¬ ∃ buffer, BuildSymlink zeroed (List.replicate 32768 65) [] false = Mem.done buffer ∧
      ReadSymlink_decode buffer = Mem.done (some (List.replicate 32768 65, [], 0)) := by
  have hne : List.replicate 32768 (65 : WCHAR) ≠ [] := by
    intro h
    have := congrArg List.length h
    rw [List.length_replicate] at this
    exact absurd this (by decide)
  refine ⟨hne, ?_⟩
  rintro ⟨buffer, hb, hd⟩
  obtain ⟨b, hb', hd'⟩ := symlink_decode_wrapped zeroed (List.replicate 32768 65) false
    (List.length_replicate _ _)
  rw [hb] at hb'
  cases hb'
  rw [hd] at hd'
  injection hd' with h1
  injection h1 with h2
  injection h2 with h3
  exact hne h3

/-- C4. Bit-exact mount-point layout: for every `T` of `t` code units and `P` of `p` code
units with `2t + 2p + 12 <= 65535`, `BuildMountPoint(T, P)` succeeds and returns a buffer of
exactly `8 + 8 + 2t + 2 + 2p + 2` bytes, equal to the concatenation of the tag `0xA0000003`
(4 little-endian bytes), the data length `2t + 2p + 12`, reserved 0, `SubstituteNameOffset`
0, `SubstituteNameLength` `2t`, `PrintNameOffset` `2t + 2`, `PrintNameLength` `2p` (2
little-endian bytes each), the UTF-16LE code units of `T`, two zero bytes, the UTF-16LE
code units of `P`, two zero bytes. -/
theorem C4_mount_point_layout (A : typed_buffer_alloc) (T P : wstring)
    (h : 2 * T.length + 2 * P.length + 12 ≤ 65535) :
    ∃ buffer, BuildMountPoint A T P = Mem.done buffer ∧
      buffer.length = 8 + 8 + 2 * T.length + 2 + 2 * P.length + 2 ∧
      buffer = le32 0xA0000003 ++ le16 (2 * T.length + 2 * P.length + 12) ++ le16 0 ++
        le16 0 ++ le16 (2 * T.length) ++ le16 (2 * T.length + 2) ++ le16 (2 * P.length) ++
        wbytes T ++ [0, 0] ++ wbytes P ++ [0, 0] := by
  refine ⟨_, BuildMountPoint_eq A T P, ?_, ?_⟩
  · simp; omega
  · rw [USHORT_of_lt _ (by omega), USHORT_of_lt _ (by omega), USHORT_of_lt _ (by omega),
      USHORT_of_lt _ (by omega)]
    have e1 : T.length * 2 + P.length * 2 + 8 + 4 = 2 * T.length + 2 * P.length + 12 := by
      omega
    have e2 : T.length * 2 = 2 * T.length := by omega
    have e3 : P.length * 2 = 2 * P.length := by omega
    rw [e1, e2, e3]
    simp only [IO_REPARSE_TAG_MOUNT_POINT, List.append_assoc]

theorem C4_mount_point_layout_witness :
    2 * ([92, 97] : wstring).length + 2 * ([97] : wstring).length + 12 ≤ 65535 ∧
    ∃ buffer, BuildMountPoint zeroed [92, 97] [97] = Mem.done buffer ∧
      buffer.length = 8 + 8 + 2 * ([92, 97] : wstring).length + 2 +
        2 * ([97] : wstring).length + 2 ∧
      buffer = le32 0xA0000003 ++
        le16 (2 * ([92, 97] : wstring).length + 2 * ([97] : wstring).length + 12) ++ le16 0 ++
        le16 0 ++ le16 (2 * ([92, 97] : wstring).length) ++
        le16 (2 * ([92, 97] : wstring).length + 2) ++ le16 (2 * ([97] : wstring).length) ++
        wbytes [92, 97] ++ [0, 0] ++ wbytes [97] ++ [0, 0] :=
  ⟨by decide, C4_mount_point_layout zeroed [92, 97] [97] (by decide)⟩

/-- C5. Symlink encoding is mount-point encoding plus a `Flags` field: for every `T` of `t`
code units and `P` of `p` code units with `2t + 2p + 16 <= 65535` and every `relative`, the
buffer `BuildSymlink(T, P, relative)` is obtained from `BuildMountPoint(T, P)` by replacing
the tag with `0xA000000C`, replacing the data length with `2t + 2p + 16` and inserting the
4 little-endian bytes of `Flags` (1 if `relative`, else 0) at byte offset 16; the four
offset and length fields (bytes 8 to 15) and the two terminated strings are identical. -/
theorem C5_symlink_from_mount_point (A : typed_buffer_alloc) (T P : wstring)
    (relative : Bool) (h : 2 * T.length + 2 * P.length + 16 ≤ 65535) :
    ∃ m s, BuildMountPoint A T P = Mem.done m ∧ BuildSymlink A T P relative = Mem.done s ∧
      s = insertAt
        (writeAt (writeAt m 0 (le32 0xA000000C)) 4 (le16 (2 * T.length + 2 * P.length + 16)))
        16 (le32 (if relative then 1 else 0)) ∧
      slice s 8 8 = slice m 8 8 ∧ s.drop 20 = m.drop 16 ∧
      m.drop 16 = wbytes T ++ [0, 0] ++ wbytes P ++ [0, 0] := by
  refine ⟨_, _, BuildMountPoint_eq A T P, BuildSymlink_eq A T P relative, ?_, ?_, ?_, ?_⟩
  · rw [USHORT_of_lt (T.length * 2 + P.length * 2 + 12 + 4) (by omega)]
    have e1 : T.length * 2 + P.length * 2 + 12 + 4 = 2 * T.length + 2 * P.length + 16 := by
      omega
    rw [e1]
    simp [insertAt, writeAt, le32, le16, SYMLINK_FLAG_RELATIVE, IO_REPARSE_TAG_SYMLINK]
  · simp [slice, le32, le16]
  · simp [le32, le16]
  · simp [le32, le16]

theorem C5_symlink_from_mount_point_witness :
    2 * ([92, 97] : wstring).length + 2 * ([97] : wstring).length + 16 ≤ 65535 ∧
    ∃ m s, BuildMountPoint zeroed [92, 97] [97] = Mem.done m ∧
      BuildSymlink zeroed [92, 97] [97] true = Mem.done s ∧
      s = insertAt
        (writeAt (writeAt m 0 (le32 0xA000000C)) 4
          (le16 (2 * ([92, 97] : wstring).length + 2 * ([97] : wstring).length + 16)))
        16 (le32 (if true then 1 else 0)) ∧
      slice s 8 8 = slice m 8 8 ∧ s.drop 20 = m.drop 16 ∧
      m.drop 16 = wbytes [92, 97] ++ [0, 0] ++ wbytes [97] ++ [0, 0] :=
  ⟨by decide, C5_symlink_from_mount_point zeroed [92, 97] [97] true (by decide)⟩

/-! ## Unchecked decoding -/

/-- The mount-point decode of a tagged buffer too short for the four fields. -/
theorem ReadMountPoint_decode_short (buf : List BYTE) (h4 : 4 ≤ buf.length)
    (htag : field32 buf 0 = IO_REPARSE_TAG_MOUNT_POINT) (h : buf.length < 16) :
    ReadMountPoint_decode buf = Mem.outOfBounds := by
  simp only [ReadMountPoint_decode, off_ReparseTag, off_SubstituteNameOffset,
    off_SubstituteNameLength, off_PrintNameOffset, off_PrintNameLength,
    off_MountPoint_PathBuffer]
  rw [readU32_eq buf 0 (by omega)]
  simp only [Mem.done_bind, htag, if_true]
  rcases Nat.lt_or_ge buf.length 14 with h14 | h14
  · rcases Nat.lt_or_ge buf.length 10 with h10 | h10
    · rw [readU16_oob buf 8 (by omega)]; rfl
    · rw [readU16_eq buf 8 (by omega), readU16_oob buf 12 (by omega)]; rfl
  · rw [readU16_eq buf 8 (by omega), readU16_eq buf 12 (by omega),
      readU16_eq buf 10 (by omega), readU16_oob buf 14 (by omega)]
    simp only [Mem.done_bind]
    cases readWString buf (16 + 2 * (field16 buf 8 / 2)) (field16 buf 10 / 2) <;> rfl

/-- The symlink decode of a tagged buffer too short for the fixed fields. -/
theorem ReadSymlink_decode_short (buf : List BYTE) (h4 : 4 ≤ buf.length)
    (htag : field32 buf 0 = IO_REPARSE_TAG_SYMLINK) (h : buf.length < 20) :
    ReadSymlink_decode buf = Mem.outOfBounds := by
  simp only [ReadSymlink_decode, off_ReparseTag, off_SubstituteNameOffset,
    off_SubstituteNameLength, off_PrintNameOffset, off_PrintNameLength,
    off_Symlink_PathBuffer, off_Symlink_Flags]
  rw [readU32_eq buf 0 (by omega)]
  simp only [Mem.done_bind, htag, if_true]
  rcases Nat.lt_or_ge buf.length 14 with h14 | h14
  · rcases Nat.lt_or_ge buf.length 10 with h10 | h10
    · rw [readU16_oob buf 8 (by omega)]; rfl
    · rw [readU16_eq buf 8 (by omega), readU16_oob buf 12 (by omega)]; rfl
  · rw [readU16_eq buf 8 (by omega), readU16_eq buf 12 (by omega),
      readU16_eq buf 10 (by omega)]
    simp only [Mem.done_bind]
    rcases Nat.lt_or_ge buf.length 16 with h16 | h16
    · rw [readU16_oob buf 14 (by omega)]
      cases readWString buf (20 + 2 * (field16 buf 8 / 2)) (field16 buf 10 / 2) <;> rfl
    · rw [readU16_eq buf 14 (by omega), readU32_oob buf 16 (by omega)]
      cases readWString buf (20 + 2 * (field16 buf 8 / 2)) (field16 buf 10 / 2) with
      | outOfBounds => rfl
      | done t =>
        simp only [Mem.done_bind]
        cases readWString buf (20 + 2 * (field16 buf 12 / 2)) (field16 buf 14 / 2) <;> rfl

/-- Outcome of the mount-point decode on every buffer tagged mount-point. -/
theorem ReadMountPoint_decode_tagged (buf : List BYTE) (h4 : 4 ≤ buf.length)
    (htag : field32 buf 0 = IO_REPARSE_TAG_MOUNT_POINT) :
    ReadMountPoint_decode buf ≠ Mem.done none ∧
    (ReadMountPoint_decode buf = Mem.outOfBounds ↔
      ¬ (16 ≤ buf.length ∧
        inBounds buf (16 + 2 * (field16 buf 8 / 2)) (field16 buf 10 / 2) ∧
        inBounds buf (16 + 2 * (field16 buf 12 / 2)) (field16 buf 14 / 2))) := by
  rcases Nat.lt_or_ge buf.length 16 with h16 | h16
  · rw [ReadMountPoint_decode_short buf h4 htag h16]
    exact ⟨by simp, by simp; omega⟩
  · rw [ReadMountPoint_decode_eq buf h16 htag]
    by_cases hT : inBounds buf (16 + 2 * (field16 buf 8 / 2)) (field16 buf 10 / 2)
    · by_cases hP : inBounds buf (16 + 2 * (field16 buf 12 / 2)) (field16 buf 14 / 2)
      · rw [readWString_eq _ _ _ hT, readWString_eq _ _ _ hP]
        simp [h16, hT, hP]
      · rw [readWString_eq _ _ _ hT, readWString_oob _ _ _ hP]
        simp [hP]
    · rw [readWString_oob _ _ _ hT]
      simp [hT]

/-- Outcome of the symlink decode on every buffer tagged symlink. -/
theorem ReadSymlink_decode_tagged (buf : List BYTE) (h4 : 4 ≤ buf.length)
    (htag : field32 buf 0 = IO_REPARSE_TAG_SYMLINK) :
    ReadSymlink_decode buf ≠ Mem.done none ∧
    (ReadSymlink_decode buf = Mem.outOfBounds ↔
      ¬ (20 ≤ buf.length ∧
        inBounds buf (20 + 2 * (field16 buf 8 / 2)) (field16 buf 10 / 2) ∧
        inBounds buf (20 + 2 * (field16 buf 12 / 2)) (field16 buf 14 / 2))) := by
  rcases Nat.lt_or_ge buf.length 20 with h20 | h20
  · rw [ReadSymlink_decode_short buf h4 htag h20]
    exact ⟨by simp, by simp; omega⟩
  · rw [ReadSymlink_decode_eq buf h20 htag]
    by_cases hT : inBounds buf (20 + 2 * (field16 buf 8 / 2)) (field16 buf 10 / 2)
    · by_cases hP : inBounds buf (20 + 2 * (field16 buf 12 / 2)) (field16 buf 14 / 2)
      · rw [readWString_eq _ _ _ hT, readWString_eq _ _ _ hP]
        simp [h20, hT, hP]
      · rw [readWString_eq _ _ _ hT, readWString_oob _ _ _ hP]
        simp [hP]
    · rw [readWString_oob _ _ _ hT]
      simp [hT]

/-- Outcome of the decode of `GetMountPointTarget` on every buffer tagged mount-point:
no error is recorded. -/
theorem GetMountPointTarget_decode_tagged (buf : List BYTE) (e : Nat) (h4 : 4 ≤ buf.length)
    (htag : field32 buf 0 = IO_REPARSE_TAG_MOUNT_POINT) :
    (∀ s e', GetMountPointTarget_decode buf e = Mem.done (s, e') → e' = e) ∧
    (GetMountPointTarget_decode buf e = Mem.outOfBounds ↔
      ¬ (12 ≤ buf.length ∧
        inBounds buf (16 + 2 * (field16 buf 8 / 2)) (field16 buf 10 / 2))) := by
  simp only [GetMountPointTarget_decode, off_ReparseTag, off_SubstituteNameOffset,
    off_SubstituteNameLength, off_MountPoint_PathBuffer]
  rw [readU32_eq buf 0 (by omega)]
  simp only [Mem.done_bind, htag, ne_eq, not_true_eq_false, if_false]
  rcases Nat.lt_or_ge buf.length 12 with h12 | h12
  · have hoob : (readU16 buf 8 >>= fun so => readU16 buf 10 >>= fun sl =>
        readWString buf (16 + 2 * (so / 2)) (sl / 2) >>= fun s =>
          (pure (s, e) : Mem (wstring × Nat))) = Mem.outOfBounds := by
      rcases Nat.lt_or_ge buf.length 10 with h10 | h10
      · rw [readU16_oob buf 8 (by omega)]; rfl
      · rw [readU16_eq buf 8 (by omega), readU16_oob buf 10 (by omega)]; rfl
    rw [hoob]
    exact ⟨by simp, by simp; omega⟩
  · rw [readU16_eq buf 8 (by omega), readU16_eq buf 10 (by omega)]
    simp only [Mem.done_bind]
    by_cases hT : inBounds buf (16 + 2 * (field16 buf 8 / 2)) (field16 buf 10 / 2)
    · rw [readWString_eq _ _ _ hT]
      simp [h12, hT]
    · rw [readWString_oob _ _ _ hT]
      simp [hT]

/-- C7. Empty-target rejection holds for `CreateMountPoint` and for the path form of
`CreateSymlink`: they return failure and leave the state, with its record of calls,
untouched.  The handle form of `CreateSymlink` has no such test: called with a valid
handle, `target = ""`, `printname = ""` and `relative = false`, it encodes the target
`\??\` and hands the 32-byte record to the set-reparse-point call. -/
theorem C7_empty_target (os : Os) (A : typed_buffer_alloc) (path printname : wstring)
    (relative : Bool) (st : State) :
    CreateMountPoint os A path [] printname st = Mem.done (false, st) ∧
    CreateSymlink os A path [] printname relative st = Mem.done (false, st) ∧
    CreateSymlink_HANDLE permissiveOs zeroed 5 [] [] false ⟨0, []⟩ =
      Mem.done (true, ⟨0, [OsCall.SET_REPARSE_POINT 5
        [12, 0, 0, 0xA0, 24, 0, 0, 0, 0, 0, 8, 0, 10, 0, 0, 0, 0, 0, 0, 0,
          92, 0, 63, 0, 63, 0, 92, 0, 0, 0, 0, 0]]⟩) :=
  ⟨rfl, rfl, by decide⟩

/-- The element `str[0]` of a string that starts with `c`. -/
theorem wstring_front_cons (c : WCHAR) (s : wstring) : wstring_front (c :: s) = c := rfl

/-- C8. Fixup idempotence: `FixupPath(FixupPath(x)) = FixupPath(x)` for every string `x`,
the empty string included. -/
theorem C8_fixup_idempotent (x : wstring) : FixupPath (FixupPath x) = FixupPath x := by
  by_cases h : wstring_front x = 92
  · have hx : FixupPath x = x := by simp [FixupPath, h]
    rw [hx, hx]
  · have hx : FixupPath x = device_namespace ++ x := by simp [FixupPath, h]
    rw [hx]
    simp [FixupPath, device_namespace, wstring_front_cons]

/-- C9. Fixup selectivity: for every string whose first code unit is the backslash
`FixupPath(x) = x`; for every string that does not begin with a backslash `FixupPath(x)`
is the 4 code units `\??\` followed by `x`; and `FixupPath("C:\data") = "\??\C:\data"`. -/
theorem C9_fixup_selective :
    (∀ x : wstring, x.head? = some 92 → FixupPath x = x) ∧
    (∀ x : wstring, x.head? ≠ some 92 → FixupPath x = [92, 63, 63, 92] ++ x) ∧
    FixupPath [67, 58, 92, 100, 97, 116, 97] =
      [92, 63, 63, 92, 67, 58, 92, 100, 97, 116, 97] := by
  refine ⟨?_, ?_, by decide⟩
  · intro x hx
    cases x with
    | nil => simp at hx
    | cons c s =>
      simp only [List.head?_cons, Option.some.injEq] at hx
      simp [FixupPath, wstring_front_cons, hx]
  · intro x hx
    cases x with
    | nil => decide
    | cons c s =>
      simp only [List.head?_cons, ne_eq, Option.some.injEq] at hx
      simp [FixupPath, wstring_front_cons, hx, device_namespace]

theorem C9_fixup_selective_witness :
    (([92, 97] : wstring).head? = some 92 ∧ FixupPath [92, 97] = [92, 97]) ∧
    (([67, 58] : wstring).head? ≠ some 92 ∧ FixupPath [67, 58] = [92, 63, 63, 92] ++ [67, 58]) :=
  ⟨⟨by decide, C9_fixup_selective.1 [92, 97] (by decide)⟩,
    ⟨by decide, C9_fixup_selective.2.1 [67, 58] (by decide)⟩⟩

/-! ## Create operations -/

/-- Calls made by `CreateMountPointInternal(path, buffer)` when the path opens with a valid
handle: the open, then the set-reparse-point call with the whole buffer. -/
theorem CreateMountPointInternal_calls (os : Os) (path : wstring) (buffer : List BYTE)
    (st : State) (hopen : os.IsValid (os.CreateFileW st.calls path true) = true) :
    (CreateMountPointInternal os path buffer st).2.calls =
      st.calls ++ [OsCall.CreateFileW path true,
        OsCall.SET_REPARSE_POINT (os.CreateFileW st.calls path true) buffer] := by
  unfold CreateMountPointInternal OpenReparsePoint SetReparsePoint
  generalize os.CreateFileW st.calls path true = h at hopen ⊢
  by_cases hinv : h = os.INVALID_HANDLE_VALUE
  · by_cases hret : os.SetReparsePoint (st.calls ++ [OsCall.CreateFileW path true]) h buffer
        = true
    · simp [hopen, hinv.symm, hret]
    · simp [hopen, hinv.symm, hret]
  · by_cases hret : os.SetReparsePoint (st.calls ++ [OsCall.CreateFileW path true]) h buffer
        = true
    · simp [hopen, hinv, hret]
    · simp [hopen, hinv, hret]

/-- C10. Fixup is applied to the target only: for every non-empty target, every printname
and every path that opens successfully, `CreateMountPoint` hands the set-reparse-point
call exactly `BuildMountPoint(FixupPath(target), printname)`, and `CreateSymlink` hands it
exactly `BuildSymlink(FixupPath(target), printname, false)` when `relative` is false and
`BuildSymlink(target, printname, true)` when `relative` is true. -/
theorem C10_fixup_target_only (os : Os) (A : typed_buffer_alloc)
    (path target printname : wstring) (st : State) (hT : target ≠ [])
    (hopen : os.IsValid (os.CreateFileW st.calls path true) = true) :
    (∃ payload r, BuildMountPoint A (FixupPath target) printname = Mem.done payload ∧
      CreateMountPoint os A path target printname st = Mem.done r ∧
      r.2.calls = st.calls ++ [OsCall.CreateFileW path true,
        OsCall.SET_REPARSE_POINT (os.CreateFileW st.calls path true) payload]) ∧
    (∃ payload r, BuildSymlink A (FixupPath target) printname false = Mem.done payload ∧
      CreateSymlink os A path target printname false st = Mem.done r ∧
      r.2.calls = st.calls ++ [OsCall.CreateFileW path true,
        OsCall.SET_REPARSE_POINT (os.CreateFileW st.calls path true) payload]) ∧
    (∃ payload r, BuildSymlink A target printname true = Mem.done payload ∧
      CreateSymlink os A path target printname true st = Mem.done r ∧
      r.2.calls = st.calls ++ [OsCall.CreateFileW path true,
        OsCall.SET_REPARSE_POINT (os.CreateFileW st.calls path true) payload]) := by
  have hlen : ¬ target.length = 0 := by
    intro h
    exact hT (List.length_eq_zero.mp h)
  refine ⟨?_, ?_, ?_⟩
  · refine ⟨_, _, BuildMountPoint_eq A (FixupPath target) printname, ?_,
      CreateMountPointInternal_calls os path _ st hopen⟩
    simp only [CreateMountPoint, hlen, if_false, BuildMountPoint_eq, Mem.done_bind,
      Mem.pure_eq]
  · refine ⟨_, _, BuildSymlink_eq A (FixupPath target) printname false, ?_,
      CreateMountPointInternal_calls os path _ st hopen⟩
    simp only [CreateSymlink, hlen, if_false, BuildSymlink_eq, Mem.done_bind, Mem.pure_eq,
      Bool.not_false, if_true]
  · refine ⟨_, _, BuildSymlink_eq A target printname true, ?_,
      CreateMountPointInternal_calls os path _ st hopen⟩
    simp only [CreateSymlink, hlen, if_false, BuildSymlink_eq, Mem.done_bind, Mem.pure_eq,
      Bool.not_true]
    rfl

theorem C10_fixup_target_only_witness :
    ([67, 58] : wstring) ≠ [] ∧
    permissiveOs.IsValid (permissiveOs.CreateFileW [] [100] true) = true ∧
    ∃ payload r, BuildMountPoint zeroed (FixupPath [67, 58]) [67] = Mem.done payload ∧
      CreateMountPoint permissiveOs zeroed [100] [67, 58] [67] ⟨0, []⟩ = Mem.done r ∧
      r.2.calls = [] ++ [OsCall.CreateFileW [100] true,
        OsCall.SET_REPARSE_POINT (permissiveOs.CreateFileW [] [100] true) payload] :=
  ⟨by decide, by decide,
    (C10_fixup_target_only permissiveOs zeroed [100] [67, 58] [67] ⟨0, []⟩ (by decide)
      (by decide)).1⟩

/-! ## Lemmas on the read operations -/

theorem slice_append_of_le (a b : List BYTE) (o n : Nat) (h : o + n ≤ a.length) :
    slice (a ++ b) o n = slice a o n := by
  unfold slice
  rw [List.take_drop, List.take_drop, List.take_append_of_le_length h]

theorem slice_take_of_le (l : List BYTE) (k o n : Nat) (h : o + n ≤ k) :
    slice (l.take k) o n = slice l o n := by
  unfold slice
  rw [List.take_drop, List.take_drop, List.take_take, Nat.min_eq_left h]

/-- Bytes of the output buffer that lie inside what the system call stored. -/
theorem slice_stored (buf data : List BYTE) (o n : Nat) (h : o + n ≤ data.length)
    (hk : o + n ≤ buf.length) :
    slice (writeAt buf 0 (data.take buf.length)) o n = slice data o n := by
  unfold writeAt
  rw [List.take_zero, List.nil_append, slice_append_of_le _ _ _ _ (by simp; omega),
    slice_take_of_le _ _ _ _ hk]

theorem length_stored (buf data : List BYTE) :
    (writeAt buf 0 (data.take buf.length)).length = buf.length := by
  rw [length_writeAt _ _ _ (by simp)]

/-- The function `ReadReparsePoint` when the system call stores `data`. -/
theorem ReadReparsePoint_eq (os : Os) (A : typed_buffer_alloc) (path : wstring) (st : State)
    (data : List BYTE)
    (hget : os.GetReparsePoint (st.calls ++ [OsCall.CreateFileW path false])
      (os.CreateFileW st.calls path false) 4096 = some data) :
    ReadReparsePoint os A path st = (some (data.take 4096), stateAfterGet os path 4096 st) := by
  unfold ReadReparsePoint stateAfterGet OpenReparsePoint
  generalize os.CreateFileW st.calls path false = h at hget
  simp only [A.size_init]
  by_cases hinv : h = os.INVALID_HANDLE_VALUE
  · simp only [hinv, if_true] at hget ⊢
    rw [← hinv] at hget ⊢
    simp only [hget]
  · simp only [hinv, if_false, hget]

/-- The buffer `ReadReparsePoint` returns has at most 4096 bytes. -/
theorem ReadReparsePoint_length (os : Os) (A : typed_buffer_alloc) (path : wstring)
    (st st' : State) (record : List BYTE)
    (h : ReadReparsePoint os A path st = (some record, st')) : record.length ≤ 4096 := by
  unfold ReadReparsePoint at h
  generalize OpenReparsePoint os path false st = p at h
  obtain ⟨hd, s1⟩ := p
  simp only [A.size_init] at h
  cases hr : os.GetReparsePoint s1.calls hd 4096 with
  | none => rw [hr] at h; simp at h
  | some data =>
    rw [hr] at h
    simp only [Prod.mk.injEq, Option.some.injEq] at h
    rw [← h.1]
    simp

theorem ReadMountPoint_of_read (os : Os) (A : typed_buffer_alloc) (path : wstring)
    (st st' : State) (record : List BYTE)
    (h : ReadReparsePoint os A path st = (some record, st')) :
    ReadMountPoint os A path st =
      (ReadMountPoint_decode record >>= fun r => Mem.done (r, st')) := by
  unfold ReadMountPoint
  rw [h]
  rfl

theorem ReadSymlink_of_read (os : Os) (A : typed_buffer_alloc) (path : wstring)
    (st st' : State) (record : List BYTE)
    (h : ReadReparsePoint os A path st = (some record, st')) :
    ReadSymlink os A path st =
      (ReadSymlink_decode record >>= fun r => Mem.done (r, st')) := by
  unfold ReadSymlink
  rw [h]
  rfl

theorem IsReparseTag_of_read (os : Os) (A : typed_buffer_alloc) (path : wstring)
    (tag : Nat) (st st' : State) (record : List BYTE) (h4 : 4 ≤ record.length)
    (h : ReadReparsePoint os A path st = (some record, st')) :
    IsReparseTag os A path tag st = Mem.done (decide (field32 record 0 = tag), st') := by
  unfold IsReparseTag
  rw [h]
  simp only [off_ReparseTag, readU32_eq record 0 (by omega)]
  rfl

/-- The decode of `GetMountPointTarget` on a buffer whose tag is not the mount-point tag:
the empty string and the tag-mismatch code, whatever else the buffer holds. -/
theorem GetMountPointTarget_decode_mismatch (buf : List BYTE) (e : Nat) (h4 : 4 ≤ buf.length)
    (htag : field32 buf 0 ≠ IO_REPARSE_TAG_MOUNT_POINT) :
    GetMountPointTarget_decode buf e = Mem.done ([], ERROR_REPARSE_TAG_MISMATCH) := by
  simp only [GetMountPointTarget_decode, off_ReparseTag]
  rw [readU32_eq buf 0 (by omega)]
  simp [htag]

/-- The decode of `GetMountPointTarget` on a buffer that holds the mount-point tag and the
two fields of the substitute name: one unchecked string load. -/
theorem GetMountPointTarget_decode_eq (buf : List BYTE) (e : Nat) (h12 : 12 ≤ buf.length)
    (htag : field32 buf 0 = IO_REPARSE_TAG_MOUNT_POINT) :
    GetMountPointTarget_decode buf e =
      (readWString buf (16 + 2 * (field16 buf 8 / 2)) (field16 buf 10 / 2) >>= fun s =>
        Mem.done (s, e)) := by
  simp only [GetMountPointTarget_decode, off_ReparseTag, off_SubstituteNameOffset,
    off_SubstituteNameLength, off_MountPoint_PathBuffer]
  rw [readU32_eq buf 0 (by omega), readU16_eq buf 8 (by omega), readU16_eq buf 10 (by omega)]
  simp [htag]

/-- The method `GetMountPointTarget` when the path opens and the system call stores
`data`: the decode runs on the 16 KiB buffer that starts with `data`. -/
theorem GetMountPointTarget_eq (os : Os) (A : typed_buffer_alloc) (path : wstring)
    (st : State) (data : List BYTE)
    (hvalid : os.IsValid (os.CreateFileW st.calls path false) = true)
    (hget : os.GetReparsePoint (st.calls ++ [OsCall.CreateFileW path false])
      (os.CreateFileW st.calls path false) MAXIMUM_REPARSE_DATA_BUFFER_SIZE = some data) :
    GetMountPointTarget os A path st =
      (GetMountPointTarget_decode
        (writeAt (A.init MAXIMUM_REPARSE_DATA_BUFFER_SIZE) 0
          (data.take (A.init MAXIMUM_REPARSE_DATA_BUFFER_SIZE).length))
        (stateAfterGet os path MAXIMUM_REPARSE_DATA_BUFFER_SIZE st).g_last_error >>= fun r =>
          Mem.done (r.1, { stateAfterGet os path MAXIMUM_REPARSE_DATA_BUFFER_SIZE st with
            g_last_error := r.2 })) := by
  have hlen : (writeAt (A.init MAXIMUM_REPARSE_DATA_BUFFER_SIZE) 0
      (data.take (A.init MAXIMUM_REPARSE_DATA_BUFFER_SIZE).length)).length ≠ 0 := by
    rw [length_stored, A.size_init]
    decide
  unfold GetMountPointTarget GetReparsePointData stateAfterGet OpenReparsePoint
  generalize os.CreateFileW st.calls path false = h at hvalid hget
  generalize hB : writeAt (A.init MAXIMUM_REPARSE_DATA_BUFFER_SIZE) 0
    (data.take (A.init MAXIMUM_REPARSE_DATA_BUFFER_SIZE).length) = B at hlen
  simp only [A.size_init] at hB ⊢
  by_cases hinv : h = os.INVALID_HANDLE_VALUE
  · simp only [hinv, if_true] at hget ⊢
    rw [← hinv] at hget ⊢
    simp only [hvalid, hget, Bool.not_true, Bool.false_eq_true, if_false, hlen, hB]
    rfl
  · simp only [hinv, if_false, hvalid, hget, Bool.not_true, Bool.false_eq_true, hlen, hB]
    rfl

/-- The tag of the 16 KiB buffer is the tag of the record stored in it. -/
theorem field32_stored (A : typed_buffer_alloc) (data : List BYTE) (h4 : 4 ≤ data.length) :
    field32 (writeAt (A.init MAXIMUM_REPARSE_DATA_BUFFER_SIZE) 0
      (data.take (A.init MAXIMUM_REPARSE_DATA_BUFFER_SIZE).length)) 0 = field32 data 0 := by
  unfold field32
  rw [slice_stored _ _ _ _ (by omega) (by rw [A.size_init]; decide)]

/-- Tag and size of every record `BuildSymlink` returns. -/
theorem BuildSymlink_tag (A : typed_buffer_alloc) (T P : wstring) (relative : Bool) :
    ∃ buffer, BuildSymlink A T P relative = Mem.done buffer ∧ 24 ≤ buffer.length ∧
      field32 buffer 0 = IO_REPARSE_TAG_SYMLINK :=
  ⟨_, BuildSymlink_record A T P relative, by simp; omega,
    (symlinkRecord_fields _ _ _ _ _ _ _).1⟩

/-- Tag and size of every record `BuildMountPoint` returns. -/
theorem BuildMountPoint_tag (A : typed_buffer_alloc) (T P : wstring) :
    ∃ buffer, BuildMountPoint A T P = Mem.done buffer ∧ 20 ≤ buffer.length ∧
      field32 buffer 0 = IO_REPARSE_TAG_MOUNT_POINT :=
  ⟨_, BuildMountPoint_record A T P, by simp; omega, (mountPointRecord_fields _ _ _ _ _ _).1⟩

/-- The method `GetMountPointTarget` on a stored record whose tag is not the mount-point
tag. -/
theorem GetMountPointTarget_mismatch (os : Os) (A : typed_buffer_alloc) (path : wstring)
    (st : State) (record : List BYTE)
    (hvalid : os.IsValid (os.CreateFileW st.calls path false) = true)
    (hget : os.GetReparsePoint (st.calls ++ [OsCall.CreateFileW path false])
      (os.CreateFileW st.calls path false) MAXIMUM_REPARSE_DATA_BUFFER_SIZE = some record)
    (h4 : 4 ≤ record.length) (htag : field32 record 0 ≠ IO_REPARSE_TAG_MOUNT_POINT) :
    GetMountPointTarget os A path st =
      Mem.done ([], { stateAfterGet os path MAXIMUM_REPARSE_DATA_BUFFER_SIZE st with
        g_last_error := ERROR_REPARSE_TAG_MISMATCH }) := by
  rw [GetMountPointTarget_eq os A path st record hvalid hget,
    GetMountPointTarget_decode_mismatch _ _
      (by rw [length_stored, A.size_init]; decide)
      (by rw [field32_stored A record h4]; exact htag)]
  rfl

/-- C11. Tag-mismatch surfacing: for every record returned by the read collaborator whose
tag differs from the mount-point tag `0xA0000003`, and in particular for every buffer
built by `BuildSymlink`, `GetMountPointTarget` returns the empty string and sets the
last-error slot to `ERROR_REPARSE_TAG_MISMATCH`; whatever the offset and length fields of
the record hold, no string is loaded from it. -/
theorem C11_tag_mismatch (os : Os) (A : typed_buffer_alloc) (path : wstring) (st : State)
    (record : List BYTE)
    (hvalid : os.IsValid (os.CreateFileW st.calls path false) = true)
    (hget : os.GetReparsePoint (st.calls ++ [OsCall.CreateFileW path false])
      (os.CreateFileW st.calls path false) MAXIMUM_REPARSE_DATA_BUFFER_SIZE = some record) :
    (4 ≤ record.length → field32 record 0 ≠ IO_REPARSE_TAG_MOUNT_POINT →
      GetMountPointTarget os A path st =
        Mem.done ([], { stateAfterGet os path MAXIMUM_REPARSE_DATA_BUFFER_SIZE st with
          g_last_error := ERROR_REPARSE_TAG_MISMATCH })) ∧
    (∀ (B : typed_buffer_alloc) (T P : wstring) (relative : Bool),
      BuildSymlink B T P relative = Mem.done record →
      GetMountPointTarget os A path st =
        Mem.done ([], { stateAfterGet os path MAXIMUM_REPARSE_DATA_BUFFER_SIZE st with
          g_last_error := ERROR_REPARSE_TAG_MISMATCH })) := by
  refine ⟨fun h4 htag => GetMountPointTarget_mismatch os A path st record hvalid hget h4 htag,
    fun B T P relative hb => ?_⟩
  obtain ⟨buffer, hb', hlen, htag⟩ := BuildSymlink_tag B T P relative
  rw [hb] at hb'
  cases hb'
  exact GetMountPointTarget_mismatch os A path st record hvalid hget (by omega)
    (by rw [htag]; decide)

theorem C11_tag_mismatch_witness :
    (replayOs sampleSymlink).IsValid
      ((replayOs sampleSymlink).CreateFileW [] [100] false) = true ∧
    (replayOs sampleSymlink).GetReparsePoint ([] ++ [OsCall.CreateFileW [100] false])
      ((replayOs sampleSymlink).CreateFileW [] [100] false)
      MAXIMUM_REPARSE_DATA_BUFFER_SIZE = some sampleSymlink ∧
    BuildSymlink zeroed [97] [] true = Mem.done sampleSymlink ∧
    GetMountPointTarget (replayOs sampleSymlink) zeroed [100] ⟨0, []⟩ =
      Mem.done ([], { stateAfterGet (replayOs sampleSymlink) [100]
        MAXIMUM_REPARSE_DATA_BUFFER_SIZE ⟨0, []⟩ with
        g_last_error := ERROR_REPARSE_TAG_MISMATCH }) :=
  ⟨by decide, rfl, by decide,
    (C11_tag_mismatch (replayOs sampleSymlink) zeroed [100] ⟨0, []⟩ sampleSymlink
      (by decide) rfl).2 zeroed [97] [] true (by decide)⟩

theorem length_vector_resize (v : List BYTE) (n : Nat) : (vector_resize v n).length = n := by
  simp [vector_resize]; omega

/-- Copying `n` bytes over a buffer of `n` bytes leaves exactly the bytes copied. -/
theorem memcpy_over (dst src : List BYTE) (n : Nat) (hd : dst.length = n)
    (hs : src.length = n) : memcpy dst 0 src n = Mem.done src := by
  rw [memcpy_all dst 0 src n hs]
  unfold writeBytes writeAt
  simp [hd, hs]

theorem ReadRaw_of_read (os : Os) (A : typed_buffer_alloc) (path : wstring)
    (raw_data : List BYTE) (st st' : State) (record : List BYTE)
    (h : ReadReparsePoint os A path st = (some record, st')) :
    ReadRaw os A path raw_data st =
      (readU32 record 0 >>= fun tag => readU16 record 4 >>= fun n =>
        memcpy (vector_resize raw_data n) 0 (record.drop 8) n >>= fun raw =>
          Mem.done (some (tag, raw), st')) := by
  unfold ReadRaw
  rw [h]
  rfl

/-- C13. Tag fidelity: for every `T`, `P` and `relative`, the tag field of
`BuildMountPoint(T, P)` is the mount-point tag `0xA0000003` and the tag field of
`BuildSymlink(T, P, relative)` is the symlink tag `0xA000000C`; consequently, when such a
buffer is what `ReadReparsePoint` returns, `IsMountPoint` is true and `IsSymlink` is false
for the former, and `IsSymlink` is true and `IsMountPoint` is false for the latter. -/
theorem C13_tag_fidelity (A : typed_buffer_alloc) (T P : wstring) (relative : Bool) :
    (∃ buffer, BuildMountPoint A T P = Mem.done buffer ∧ field32 buffer 0 = 0xA0000003 ∧
      ∀ (os : Os) (B : typed_buffer_alloc) (path : wstring) (st st' : State),
        ReadReparsePoint os B path st = (some buffer, st') →
        IsMountPoint os B path st = Mem.done (true, st') ∧
        IsSymlink os B path st = Mem.done (false, st')) ∧
    (∃ buffer, BuildSymlink A T P relative = Mem.done buffer ∧
      field32 buffer 0 = 0xA000000C ∧
      ∀ (os : Os) (B : typed_buffer_alloc) (path : wstring) (st st' : State),
        ReadReparsePoint os B path st = (some buffer, st') →
        IsSymlink os B path st = Mem.done (true, st') ∧
        IsMountPoint os B path st = Mem.done (false, st')) := by
  constructor
  · obtain ⟨buffer, hb, hlen, htag⟩ := BuildMountPoint_tag A T P
    refine ⟨buffer, hb, htag, fun os B path st st' hread => ?_⟩
    unfold IsMountPoint IsSymlink
    rw [IsReparseTag_of_read os B path _ st st' buffer (by omega) hread,
      IsReparseTag_of_read os B path _ st st' buffer (by omega) hread, htag]
    exact ⟨rfl, rfl⟩
  · obtain ⟨buffer, hb, hlen, htag⟩ := BuildSymlink_tag A T P relative
    refine ⟨buffer, hb, htag, fun os B path st st' hread => ?_⟩
    unfold IsMountPoint IsSymlink
    rw [IsReparseTag_of_read os B path _ st st' buffer (by omega) hread,
      IsReparseTag_of_read os B path _ st st' buffer (by omega) hread, htag]
    exact ⟨rfl, rfl⟩

theorem C13_tag_fidelity_witness :
    BuildMountPoint zeroed [65, 66] [67] = Mem.done sampleMountPoint ∧
    ReadReparsePoint (replayOs sampleMountPoint) zeroed [100] ⟨0, []⟩ =
      (some sampleMountPoint, stateAfterGet (replayOs sampleMountPoint) [100] 4096 ⟨0, []⟩) ∧
    IsMountPoint (replayOs sampleMountPoint) zeroed [100] ⟨0, []⟩ =
      Mem.done (true, stateAfterGet (replayOs sampleMountPoint) [100] 4096 ⟨0, []⟩) ∧
    IsSymlink (replayOs sampleMountPoint) zeroed [100] ⟨0, []⟩ =
      Mem.done (false, stateAfterGet (replayOs sampleMountPoint) [100] 4096 ⟨0, []⟩) := by
  have hb : BuildMountPoint zeroed [65, 66] [67] = Mem.done sampleMountPoint := by decide
  have hread := ReadReparsePoint_eq (replayOs sampleMountPoint) zeroed [100] ⟨0, []⟩
    sampleMountPoint rfl
  obtain ⟨buffer, hb', -, hall⟩ := (C13_tag_fidelity zeroed [65, 66] [67] true).1
  rw [hb] at hb'
  cases hb'
  exact ⟨hb, hread, hall _ _ _ _ _ hread⟩

/-- The mount-point decode of a record whose four fields are even and in bounds. -/
theorem ReadMountPoint_decode_wellFormed (buffer : List BYTE)
    (htag : field32 buffer 0 = IO_REPARSE_TAG_MOUNT_POINT)
    (hso : field16 buffer 8 % 2 = 0) (hsl : field16 buffer 10 % 2 = 0)
    (hpo : field16 buffer 12 % 2 = 0) (hpl : field16 buffer 14 % 2 = 0)
    (hs : 16 + field16 buffer 8 + field16 buffer 10 ≤ buffer.length)
    (hp : 16 + field16 buffer 12 + field16 buffer 14 ≤ buffer.length) :
    ReadMountPoint_decode buffer = Mem.done (some
      (wchars (slice buffer (16 + field16 buffer 8) (field16 buffer 10)),
        wchars (slice buffer (16 + field16 buffer 12) (field16 buffer 14)))) := by
  have e1 : 2 * (field16 buffer 8 / 2) = field16 buffer 8 := by omega
  have e2 : 2 * (field16 buffer 10 / 2) = field16 buffer 10 := by omega
  have e3 : 2 * (field16 buffer 12 / 2) = field16 buffer 12 := by omega
  have e4 : 2 * (field16 buffer 14 / 2) = field16 buffer 14 := by omega
  rw [ReadMountPoint_decode_eq buffer (by omega) htag,
    readWString_eq _ _ _ (by unfold inBounds; omega),
    readWString_eq _ _ _ (by unfold inBounds; omega), e1, e2, e3, e4]
  rfl

/-- The symlink decode of a record whose four fields are even and in bounds. -/
theorem ReadSymlink_decode_wellFormed (buffer : List BYTE)
    (htag : field32 buffer 0 = IO_REPARSE_TAG_SYMLINK)
    (hso : field16 buffer 8 % 2 = 0) (hsl : field16 buffer 10 % 2 = 0)
    (hpo : field16 buffer 12 % 2 = 0) (hpl : field16 buffer 14 % 2 = 0)
    (hs : 20 + field16 buffer 8 + field16 buffer 10 ≤ buffer.length)
    (hp : 20 + field16 buffer 12 + field16 buffer 14 ≤ buffer.length) :
    ReadSymlink_decode buffer = Mem.done (some
      (wchars (slice buffer (20 + field16 buffer 8) (field16 buffer 10)),
        wchars (slice buffer (20 + field16 buffer 12) (field16 buffer 14)),
        field32 buffer 16)) := by
  have e1 : 2 * (field16 buffer 8 / 2) = field16 buffer 8 := by omega
  have e2 : 2 * (field16 buffer 10 / 2) = field16 buffer 10 := by omega
  have e3 : 2 * (field16 buffer 12 / 2) = field16 buffer 12 := by omega
  have e4 : 2 * (field16 buffer 14 / 2) = field16 buffer 14 := by omega
  rw [ReadSymlink_decode_eq buffer (by omega) htag,
    readWString_eq _ _ _ (by unfold inBounds; omega),
    readWString_eq _ _ _ (by unfold inBounds; omega), e1, e2, e3, e4]
  rfl

/-- C14. Decode addresses strings relative to the path buffer, for arbitrary well-formed
records: for every buffer tagged mount-point whose four offset and length fields are even
and in bounds, `ReadMountPoint` returns as target the `SubstituteNameLength` bytes starting
at record byte `16 + SubstituteNameOffset` and as printname the `PrintNameLength` bytes
starting at record byte `16 + PrintNameOffset`, read as UTF-16LE; for every such buffer
tagged symlink, `ReadSymlink` returns the slices starting at record bytes
`20 + SubstituteNameOffset` and `20 + PrintNameOffset` and the 32-bit `Flags` stored at
record byte 16.  Nothing is assumed on the order or overlap of the two strings. -/
theorem C14_decode_relative_to_path_buffer (os : Os) (A : typed_buffer_alloc)
    (path : wstring) (st st' : State) (buffer : List BYTE)
    (hread : ReadReparsePoint os A path st = (some buffer, st'))
    (hso : field16 buffer 8 % 2 = 0) (hsl : field16 buffer 10 % 2 = 0)
    (hpo : field16 buffer 12 % 2 = 0) (hpl : field16 buffer 14 % 2 = 0) :
    (field32 buffer 0 = IO_REPARSE_TAG_MOUNT_POINT →
      16 + field16 buffer 8 + field16 buffer 10 ≤ buffer.length →
      16 + field16 buffer 12 + field16 buffer 14 ≤ buffer.length →
      ReadMountPoint os A path st = Mem.done (some
        (wchars (slice buffer (16 + field16 buffer 8) (field16 buffer 10)),
          wchars (slice buffer (16 + field16 buffer 12) (field16 buffer 14))), st')) ∧
    (field32 buffer 0 = IO_REPARSE_TAG_SYMLINK →
      20 + field16 buffer 8 + field16 buffer 10 ≤ buffer.length →
      20 + field16 buffer 12 + field16 buffer 14 ≤ buffer.length →
      ReadSymlink os A path st = Mem.done (some
        (wchars (slice buffer (20 + field16 buffer 8) (field16 buffer 10)),
          wchars (slice buffer (20 + field16 buffer 12) (field16 buffer 14)),
          field32 buffer 16), st')) := by
  constructor
  · intro htag hs hp
    rw [ReadMountPoint_of_read os A path st st' buffer hread,
      ReadMountPoint_decode_wellFormed buffer htag hso hsl hpo hpl hs hp]
    rfl
  · intro htag hs hp
    rw [ReadSymlink_of_read os A path st st' buffer hread,
      ReadSymlink_decode_wellFormed buffer htag hso hsl hpo hpl hs hp]
    rfl

theorem C14_decode_relative_to_path_buffer_witness :
    ReadReparsePoint (replayOs sampleOverlap) zeroed [100] ⟨0, []⟩ =
      (some sampleOverlap, stateAfterGet (replayOs sampleOverlap) [100] 4096 ⟨0, []⟩) ∧
    field16 sampleOverlap 8 % 2 = 0 ∧ field16 sampleOverlap 10 % 2 = 0 ∧
    field16 sampleOverlap 12 % 2 = 0 ∧ field16 sampleOverlap 14 % 2 = 0 ∧
    field32 sampleOverlap 0 = IO_REPARSE_TAG_MOUNT_POINT ∧
    16 + field16 sampleOverlap 8 + field16 sampleOverlap 10 ≤ sampleOverlap.length ∧
    16 + field16 sampleOverlap 12 + field16 sampleOverlap 14 ≤ sampleOverlap.length ∧
    ReadMountPoint (replayOs sampleOverlap) zeroed [100] ⟨0, []⟩ = Mem.done (some
      (wchars (slice sampleOverlap (16 + field16 sampleOverlap 8) (field16 sampleOverlap 10)),
        wchars (slice sampleOverlap (16 + field16 sampleOverlap 12)
          (field16 sampleOverlap 14))),
      stateAfterGet (replayOs sampleOverlap) [100] 4096 ⟨0, []⟩) ∧
    wchars (slice sampleOverlap (16 + field16 sampleOverlap 8) (field16 sampleOverlap 10)) =
      [65, 66] ∧
    wchars (slice sampleOverlap (16 + field16 sampleOverlap 12) (field16 sampleOverlap 14)) =
      [66] :=
  ⟨ReadReparsePoint_eq (replayOs sampleOverlap) zeroed [100] ⟨0, []⟩ _ rfl,
    by decide, by decide, by decide, by decide, by decide, by decide, by decide,
    (C14_decode_relative_to_path_buffer (replayOs sampleOverlap) zeroed [100] ⟨0, []⟩ _
      sampleOverlap (ReadReparsePoint_eq (replayOs sampleOverlap) zeroed [100] ⟨0, []⟩ _ rfl)
      (by decide) (by decide) (by decide) (by decide)).1 (by decide) (by decide) (by decide),
    by decide, by decide⟩

/-! ## Overwriting the terminators -/

theorem writeAt_append_right (a b : List BYTE) (k o : Nat) (w : List BYTE)
    (hk : a.length = k) : writeAt (a ++ b) (k + o) w = a ++ writeAt b o w := by
  subst hk
  unfold writeAt
  rw [List.take_append, Nat.add_assoc, List.drop_append]
  simp only [List.append_assoc]

theorem writeAt_mountPointRecord (d so sl po pl : Nat) (pb : List BYTE) (o : Nat)
    (w : List BYTE) :
    writeAt (mountPointRecord d so sl po pl pb) (16 + o) w =
      mountPointRecord d so sl po pl (writeAt pb o w) := by
  have key := writeAt_append_right (le32 IO_REPARSE_TAG_MOUNT_POINT ++ (le16 d ++ (le16 0 ++
    (le16 so ++ (le16 sl ++ (le16 po ++ le16 pl)))))) pb 16 o w (by simp)
  simp only [List.append_assoc] at key
  exact key

theorem writeAt_symlinkRecord (d so sl po pl fl : Nat) (pb : List BYTE) (o : Nat)
    (w : List BYTE) :
    writeAt (symlinkRecord d so sl po pl fl pb) (20 + o) w =
      symlinkRecord d so sl po pl fl (writeAt pb o w) := by
  have key := writeAt_append_right (le32 IO_REPARSE_TAG_SYMLINK ++ (le16 d ++ (le16 0 ++
    (le16 so ++ (le16 sl ++ (le16 po ++ (le16 pl ++ le32 fl))))))) pb 20 o w (by simp)
  simp only [List.append_assoc] at key
  exact key

/-- The path buffer laid out by the encoders, after both terminators are overwritten. -/
theorem writeAt_terminators (T P : wstring) (a b c d : BYTE) :
    writeAt (writeAt ((wbytes T ++ [0, 0]) ++ (wbytes P ++ [0, 0])) (2 * T.length) [a, b])
      (2 * T.length + 2 + 2 * P.length) [c, d] =
      (wbytes T ++ [a, b]) ++ (wbytes P ++ [c, d]) := by
  have h1 : writeAt ((wbytes T ++ [0, 0]) ++ (wbytes P ++ [0, 0])) (2 * T.length) [a, b] =
      (wbytes T ++ [a, b]) ++ (wbytes P ++ [0, 0]) := by
    have := writeAt_append_right (wbytes T) ([0, 0] ++ (wbytes P ++ [0, 0])) (2 * T.length) 0
      [a, b] (by simp)
    simp only [Nat.add_zero] at this
    rw [List.append_assoc, this]
    simp [writeAt]
  have h2 : writeAt ((wbytes T ++ [a, b]) ++ (wbytes P ++ [0, 0]))
      (2 * T.length + 2 + 2 * P.length) [c, d] = (wbytes T ++ [a, b]) ++ (wbytes P ++ [c, d]) := by
    have := writeAt_append_right ((wbytes T ++ [a, b]) ++ wbytes P) [0, 0]
      (2 * T.length + 2 + 2 * P.length) 0 [c, d] (by simp; omega)
    simp only [Nat.add_zero, List.append_assoc] at this
    simp only [List.append_assoc]
    rw [this]
    simp [writeAt]
  rw [h1, h2]

/-- The mount-point decode of an encoded record whose terminators hold any four bytes. -/
theorem mountPoint_roundtrip_terminators (A : typed_buffer_alloc) (T P : wstring)
    (a b c d : BYTE) (ht : T.length ≤ 32766) (hp : P.length ≤ 32767) :
    ∃ buffer, BuildMountPoint A T P = Mem.done buffer ∧
      ReadMountPoint_decode (writeAt (writeAt buffer (16 + 2 * T.length) [a, b])
        (16 + (2 * T.length + 2 + 2 * P.length)) [c, d]) = Mem.done (some (T, P)) := by
  refine ⟨_, BuildMountPoint_record A T P, ?_⟩
  rw [writeAt_mountPointRecord, writeAt_mountPointRecord, writeAt_terminators]
  obtain ⟨hT, hP⟩ := readWString_pathBuffer T P [a, b] [c, d] rfl
  rw [ReadMountPoint_decode_record _ _ _ _ _ _ (by decide) (USHORT_lt _) (USHORT_lt _)
    (USHORT_lt _), USHORT_of_lt _ (by omega), USHORT_of_lt _ (by omega),
    USHORT_of_lt _ (by omega)]
  have e1 : T.length * 2 / 2 = T.length := by omega
  have e2 : 2 * ((T.length * 2 + 2) / 2) = 2 * T.length + 2 := by omega
  have e3 : P.length * 2 / 2 = P.length := by omega
  rw [e1, e2, e3]
  simp only [Nat.zero_div, Nat.mul_zero, hT, hP, Mem.done_bind]

/-- The symlink decode of an encoded record whose terminators hold any four bytes. -/
theorem symlink_roundtrip_terminators (A : typed_buffer_alloc) (T P : wstring)
    (relative : Bool) (a b c d : BYTE) (ht : T.length ≤ 32766) (hp : P.length ≤ 32767) :
    ∃ buffer, BuildSymlink A T P relative = Mem.done buffer ∧
      ReadSymlink_decode (writeAt (writeAt buffer (20 + 2 * T.length) [a, b])
        (20 + (2 * T.length + 2 + 2 * P.length)) [c, d]) =
        Mem.done (some (T, P, if relative then SYMLINK_FLAG_RELATIVE else 0)) := by
  refine ⟨_, BuildSymlink_record A T P relative, ?_⟩
  rw [writeAt_symlinkRecord, writeAt_symlinkRecord, writeAt_terminators]
  obtain ⟨hT, hP⟩ := readWString_pathBuffer T P [a, b] [c, d] rfl
  rw [ReadSymlink_decode_record _ _ _ _ _ _ _ (by decide) (USHORT_lt _) (USHORT_lt _)
    (USHORT_lt _) (by cases relative <;> decide), USHORT_of_lt _ (by omega),
    USHORT_of_lt _ (by omega), USHORT_of_lt _ (by omega)]
  have e1 : T.length * 2 / 2 = T.length := by omega
  have e2 : 2 * ((T.length * 2 + 2) / 2) = 2 * T.length + 2 := by omega
  have e3 : P.length * 2 / 2 = P.length := by omega
  rw [e1, e2, e3]
  simp only [Nat.zero_div, Nat.mul_zero, hT, hP, Mem.done_bind]

/-- C15. Decode does not depend on the terminators: for every `T` and `P` whose lengths
fit the 16-bit fields (`2t + 2` and `2p` at most 65535, so that `SubstituteNameLength`,
`PrintNameOffset` and `PrintNameLength` are stored as such), overwriting in the buffer
built by `BuildMountPoint(T, P)` (respectively `BuildSymlink(T, P, relative)`) the two
bytes after the substitute name and the two bytes after the print name with arbitrary
bytes leaves the result of the mount-point (respectively symlink) decode unchanged, namely
`(T, P)` (respectively `(T, P, flags)`). -/
theorem C15_decode_ignores_terminators (A : typed_buffer_alloc) (T P : wstring)
    (relative : Bool) (a b c d : BYTE) (ht : 2 * T.length + 2 ≤ 65535)
    (hp : 2 * P.length ≤ 65535) :
    (∃ buffer, BuildMountPoint A T P = Mem.done buffer ∧
      ReadMountPoint_decode buffer = Mem.done (some (T, P)) ∧
      ReadMountPoint_decode (writeAt (writeAt buffer (16 + 2 * T.length) [a, b])
        (16 + (2 * T.length + 2 + 2 * P.length)) [c, d]) = Mem.done (some (T, P))) ∧
    (∃ buffer, BuildSymlink A T P relative = Mem.done buffer ∧
      ReadSymlink_decode buffer = Mem.done (some (T, P, if relative then 1 else 0)) ∧
      ReadSymlink_decode (writeAt (writeAt buffer (20 + 2 * T.length) [a, b])
        (20 + (2 * T.length + 2 + 2 * P.length)) [c, d]) =
        Mem.done (some (T, P, if relative then 1 else 0))) := by
  constructor
  · obtain ⟨buffer, hb, hd⟩ := mountPoint_roundtrip_terminators A T P a b c d (by omega)
      (by omega)
    obtain ⟨buffer', hb', hd'⟩ := mountPoint_roundtrip A T P (by omega) (by omega)
    rw [hb] at hb'
    cases hb'
    exact ⟨buffer, hb, hd', hd⟩
  · obtain ⟨buffer, hb, hd⟩ := symlink_roundtrip_terminators A T P relative a b c d
      (by omega) (by omega)
    obtain ⟨buffer', hb', hd'⟩ := symlink_roundtrip A T P relative (by omega) (by omega)
    rw [hb] at hb'
    cases hb'
    exact ⟨buffer, hb, hd', hd⟩

theorem C15_decode_ignores_terminators_witness :
    2 * ([65, 66] : wstring).length + 2 ≤ 65535 ∧ 2 * ([67] : wstring).length ≤ 65535 ∧
    ∃ buffer, BuildMountPoint zeroed [65, 66] [67] = Mem.done buffer ∧
      ReadMountPoint_decode buffer = Mem.done (some ([65, 66], [67])) ∧
      ReadMountPoint_decode (writeAt (writeAt buffer (16 + 2 * ([65, 66] : wstring).length)
        [255, 254])
        (16 + (2 * ([65, 66] : wstring).length + 2 + 2 * ([67] : wstring).length)) [1, 2]) =
        Mem.done (some ([65, 66], [67])) :=
  ⟨by decide, by decide,
    (C15_decode_ignores_terminators zeroed [65, 66] [67] true 255 254 1 2 (by decide)
      (by decide)).1⟩

/-! ## Typed reads -/

theorem ReadMountPoint_decode_mismatch (buf : List BYTE) (h4 : 4 ≤ buf.length)
    (htag : field32 buf 0 ≠ IO_REPARSE_TAG_MOUNT_POINT) :
    ReadMountPoint_decode buf = Mem.done none := by
  simp only [ReadMountPoint_decode, off_ReparseTag]
  rw [readU32_eq buf 0 (by omega)]
  simp [htag]

theorem ReadSymlink_decode_mismatch (buf : List BYTE) (h4 : 4 ≤ buf.length)
    (htag : field32 buf 0 ≠ IO_REPARSE_TAG_SYMLINK) :
    ReadSymlink_decode buf = Mem.done none := by
  simp only [ReadSymlink_decode, off_ReparseTag]
  rw [readU32_eq buf 0 (by omega)]
  simp [htag]

/-- A run that ends in a result came from a decode that ended in that result. -/
theorem Mem.bind_done_eq {α σ : Type} (m : Mem α) (s : σ) (a : α) :
    (m >>= fun r => Mem.done (r, s)) = Mem.done (a, s) ↔ m = Mem.done a := by
  cases m with
  | done x =>
    simp only [Mem.done_bind, Mem.done.injEq, Prod.mk.injEq, and_true]
  | outOfBounds =>
    simp only [Mem.outOfBounds_bind]
    constructor <;> intro h <;> cases h

/-- When the mount-point decode fails and when it succeeds, on a record with a tag. -/
theorem ReadMountPoint_decode_outcome (buf : List BYTE) (h4 : 4 ≤ buf.length) :
    (ReadMountPoint_decode buf = Mem.done none ↔
      field32 buf 0 ≠ IO_REPARSE_TAG_MOUNT_POINT) ∧
    ((∃ r, ReadMountPoint_decode buf = Mem.done (some r)) ↔
      (field32 buf 0 = IO_REPARSE_TAG_MOUNT_POINT ∧ 16 ≤ buf.length ∧
        inBounds buf (16 + 2 * (field16 buf 8 / 2)) (field16 buf 10 / 2) ∧
        inBounds buf (16 + 2 * (field16 buf 12 / 2)) (field16 buf 14 / 2))) := by
  by_cases htag : field32 buf 0 = IO_REPARSE_TAG_MOUNT_POINT
  · obtain ⟨hne, hoob⟩ := ReadMountPoint_decode_tagged buf h4 htag
    refine ⟨⟨fun h => absurd h hne, fun h => absurd htag h⟩, ?_⟩
    constructor
    · rintro ⟨r, hr⟩
      refine ⟨htag, ?_⟩
      by_contra hnot
      rw [hoob.mpr hnot] at hr
      cases hr
    · rintro ⟨-, hin⟩
      cases hm : ReadMountPoint_decode buf with
      | outOfBounds => exact absurd hin (hoob.mp hm)
      | done x =>
        cases x with
        | none => exact absurd hm hne
        | some r => exact ⟨r, rfl⟩
  · have hm := ReadMountPoint_decode_mismatch buf h4 htag
    refine ⟨⟨fun _ => htag, fun _ => hm⟩, ?_⟩
    constructor
    · rintro ⟨r, hr⟩
      rw [hm] at hr
      cases hr
    · rintro ⟨h, -⟩
      exact absurd h htag

/-- When the symlink decode fails and when it succeeds, on a record with a tag. -/
theorem ReadSymlink_decode_outcome (buf : List BYTE) (h4 : 4 ≤ buf.length) :
    (ReadSymlink_decode buf = Mem.done none ↔ field32 buf 0 ≠ IO_REPARSE_TAG_SYMLINK) ∧
    ((∃ r, ReadSymlink_decode buf = Mem.done (some r)) ↔
      (field32 buf 0 = IO_REPARSE_TAG_SYMLINK ∧ 20 ≤ buf.length ∧
        inBounds buf (20 + 2 * (field16 buf 8 / 2)) (field16 buf 10 / 2) ∧
        inBounds buf (20 + 2 * (field16 buf 12 / 2)) (field16 buf 14 / 2))) := by
  by_cases htag : field32 buf 0 = IO_REPARSE_TAG_SYMLINK
  · obtain ⟨hne, hoob⟩ := ReadSymlink_decode_tagged buf h4 htag
    refine ⟨⟨fun h => absurd h hne, fun h => absurd htag h⟩, ?_⟩
    constructor
    · rintro ⟨r, hr⟩
      refine ⟨htag, ?_⟩
      by_contra hnot
      rw [hoob.mpr hnot] at hr
      cases hr
    · rintro ⟨-, hin⟩
      cases hm : ReadSymlink_decode buf with
      | outOfBounds => exact absurd hin (hoob.mp hm)
      | done x =>
        cases x with
        | none => exact absurd hm hne
        | some r => exact ⟨r, rfl⟩
  · have hm := ReadSymlink_decode_mismatch buf h4 htag
    refine ⟨⟨fun _ => htag, fun _ => hm⟩, ?_⟩
    constructor
    · rintro ⟨r, hr⟩
      rw [hm] at hr
      cases hr
    · rintro ⟨h, -⟩
      exact absurd h htag

/-! ## Agreement of the two mount-point reads -/

/-- C18. The encoders never fail and truncate the data length modulo `2^16`: for every `T`
of `t` code units and `P` of `p` code units, `BuildMountPoint(T, P)` returns a buffer of
`2t + 2p + 20` bytes whose data-length field holds `(2t + 2p + 12) mod 65536`, so the
field equals the buffer size minus 8 if and only if `t + p <= 32761`;
`BuildSymlink(T, P, relative)` returns a buffer of `2t + 2p + 24` bytes whose data-length
field holds `(2t + 2p + 16) mod 65536`, so the field equals the buffer size minus 8 if and
only if `t + p <= 32759`. -/
theorem C18_encoders_truncate (A : typed_buffer_alloc) (T P : wstring) (relative : Bool) :
    (∃ buffer, BuildMountPoint A T P = Mem.done buffer ∧
      buffer.length = 2 * T.length + 2 * P.length + 20 ∧
      field16 buffer 4 = (2 * T.length + 2 * P.length + 12) % 65536 ∧
      (field16 buffer 4 = buffer.length - 8 ↔ T.length + P.length ≤ 32761)) ∧
    (∃ buffer, BuildSymlink A T P relative = Mem.done buffer ∧
      buffer.length = 2 * T.length + 2 * P.length + 24 ∧
      field16 buffer 4 = (2 * T.length + 2 * P.length + 16) % 65536 ∧
      (field16 buffer 4 = buffer.length - 8 ↔ T.length + P.length ≤ 32759)) := by
  constructor
  · obtain ⟨buffer, hb, hl, hf⟩ := BuildMountPoint_size A T P
    exact ⟨buffer, hb, hl, hf, by rw [hf, hl]; omega⟩
  · obtain ⟨buffer, hb, hl, hf⟩ := BuildSymlink_size A T P relative
    exact ⟨buffer, hb, hl, hf, by rw [hf, hl]; omega⟩

/-! ## Round trip under the field bounds -/

/-- Fields and string bounds of the record `BuildMountPoint` returns when the three
string fields fit 16 bits. -/
theorem BuildMountPoint_fields (A : typed_buffer_alloc) (T P : wstring)
    (ht : T.length ≤ 32766) (hp : P.length ≤ 32767) :
    ∃ buffer, BuildMountPoint A T P = Mem.done buffer ∧
      buffer.length = 2 * T.length + 2 * P.length + 20 ∧
      field16 buffer 8 = 0 ∧ field16 buffer 10 = 2 * T.length ∧
      field16 buffer 12 = 2 * T.length + 2 ∧ field16 buffer 14 = 2 * P.length := by
  obtain ⟨-, -, h8, h10, h12, h14⟩ := mountPointRecord_fields
    (USHORT (T.length * 2 + P.length * 2 + 8 + 4)) 0 (USHORT (T.length * 2))
    (USHORT (T.length * 2 + 2)) (USHORT (P.length * 2))
    ((wbytes T ++ [0, 0]) ++ (wbytes P ++ [0, 0]))
  refine ⟨_, BuildMountPoint_record A T P, by simp; omega, h8, ?_, ?_, ?_⟩
  · rw [h10, USHORT, Nat.mod_mod]; omega
  · rw [h12, USHORT, Nat.mod_mod]; omega
  · rw [h14, USHORT, Nat.mod_mod]; omega

/-- Fields and string bounds of the record `BuildSymlink` returns when the three string
fields fit 16 bits. -/
theorem BuildSymlink_fields (A : typed_buffer_alloc) (T P : wstring) (relative : Bool)
    (ht : T.length ≤ 32766) (hp : P.length ≤ 32767) :
    ∃ buffer, BuildSymlink A T P relative = Mem.done buffer ∧
      buffer.length = 2 * T.length + 2 * P.length + 24 ∧
      field16 buffer 8 = 0 ∧ field16 buffer 10 = 2 * T.length ∧
      field16 buffer 12 = 2 * T.length + 2 ∧ field16 buffer 14 = 2 * P.length := by
  obtain ⟨-, -, h8, h10, h12, h14, -⟩ := symlinkRecord_fields
    (USHORT (T.length * 2 + P.length * 2 + 12 + 4)) 0 (USHORT (T.length * 2))
    (USHORT (T.length * 2 + 2)) (USHORT (P.length * 2))
    (if relative then SYMLINK_FLAG_RELATIVE else 0)
    ((wbytes T ++ [0, 0]) ++ (wbytes P ++ [0, 0]))
  refine ⟨_, BuildSymlink_record A T P relative, by simp; omega, h8, ?_, ?_, ?_⟩
  · rw [h10, USHORT, Nat.mod_mod]; omega
  · rw [h12, USHORT, Nat.mod_mod]; omega
  · rw [h14, USHORT, Nat.mod_mod]; omega

/-- C19. Round trip under the 16-bit field bounds: for every `T` of at most 32766 code
units (empty `T` included) and every `P` of at most 32767 code units, the fields
`SubstituteNameLength = 2t`, `PrintNameOffset = 2t + 2` and `PrintNameLength = 2p` are
stored without truncation, every byte the decode reads lies inside the encoded buffer,
and the mount-point decode of `BuildMountPoint(T, P)` yields `(T, P)` and the symlink
decode of `BuildSymlink(T, P, relative)` yields `(T, P, relative ? 1 : 0)`; nothing is
assumed on the data-length field, which holds `(2t + 2p + 12) mod 65536` (respectively
`(2t + 2p + 16) mod 65536`). -/
theorem C19_round_trip_bounded (A : typed_buffer_alloc) (T P : wstring) (relative : Bool)
    (ht : T.length ≤ 32766) (hp : P.length ≤ 32767) :
    (∃ buffer, BuildMountPoint A T P = Mem.done buffer ∧
      field16 buffer 4 = (2 * T.length + 2 * P.length + 12) % 65536 ∧
      field16 buffer 10 = 2 * T.length ∧ field16 buffer 12 = 2 * T.length + 2 ∧
      field16 buffer 14 = 2 * P.length ∧
      16 ≤ buffer.length ∧
      inBounds buffer (16 + 2 * (field16 buffer 8 / 2)) (field16 buffer 10 / 2) ∧
      inBounds buffer (16 + 2 * (field16 buffer 12 / 2)) (field16 buffer 14 / 2) ∧
      ReadMountPoint_decode buffer = Mem.done (some (T, P))) ∧
    (∃ buffer, BuildSymlink A T P relative = Mem.done buffer ∧
      field16 buffer 4 = (2 * T.length + 2 * P.length + 16) % 65536 ∧
      field16 buffer 10 = 2 * T.length ∧ field16 buffer 12 = 2 * T.length + 2 ∧
      field16 buffer 14 = 2 * P.length ∧
      20 ≤ buffer.length ∧
      inBounds buffer (20 + 2 * (field16 buffer 8 / 2)) (field16 buffer 10 / 2) ∧
      inBounds buffer (20 + 2 * (field16 buffer 12 / 2)) (field16 buffer 14 / 2) ∧
      ReadSymlink_decode buffer = Mem.done (some (T, P, if relative then 1 else 0))) := by
  constructor
  · obtain ⟨buffer, hb, hl, h8, h10, h12, h14⟩ := BuildMountPoint_fields A T P ht hp
    obtain ⟨b1, hb1, -, hf⟩ := BuildMountPoint_size A T P
    obtain ⟨b2, hb2, hd⟩ := mountPoint_roundtrip A T P ht hp
    rw [hb] at hb1 hb2
    cases hb1
    cases hb2
    refine ⟨buffer, hb, hf, h10, h12, h14, by omega, ?_, ?_, hd⟩
    · unfold inBounds; rw [h8, h10, hl]; omega
    · unfold inBounds; rw [h12, h14, hl]; omega
  · obtain ⟨buffer, hb, hl, h8, h10, h12, h14⟩ := BuildSymlink_fields A T P relative ht hp
    obtain ⟨b1, hb1, -, hf⟩ := BuildSymlink_size A T P relative
    obtain ⟨b2, hb2, hd⟩ := symlink_roundtrip A T P relative ht hp
    rw [hb] at hb1 hb2
    cases hb1
    cases hb2
    refine ⟨buffer, hb, hf, h10, h12, h14, by omega, ?_, ?_, hd⟩
    · unfold inBounds; rw [h8, h10, hl]; omega
    · unfold inBounds; rw [h12, h14, hl]; omega

theorem C19_round_trip_bounded_witness :
    ([] : wstring).length ≤ 32766 ∧ ([67] : wstring).length ≤ 32767 ∧
    ∃ buffer, BuildMountPoint zeroed [] [67] = Mem.done buffer ∧
      field16 buffer 4 = (2 * ([] : wstring).length + 2 * ([67] : wstring).length + 12) % 65536 ∧
      field16 buffer 10 = 2 * ([] : wstring).length ∧
      field16 buffer 12 = 2 * ([] : wstring).length + 2 ∧
      field16 buffer 14 = 2 * ([67] : wstring).length ∧
      16 ≤ buffer.length ∧
      inBounds buffer (16 + 2 * (field16 buffer 8 / 2)) (field16 buffer 10 / 2) ∧
      inBounds buffer (16 + 2 * (field16 buffer 12 / 2)) (field16 buffer 14 / 2) ∧
      ReadMountPoint_decode buffer = Mem.done (some ([], [67])) :=
  ⟨by decide, by decide, (C19_round_trip_bounded zeroed [] [67] true (by decide) (by decide)).1⟩

/-! ## Lemmas on unchecked loads -/

/-- An unchecked load that stays inside the buffer delivers its bytes. -/
theorem loadBytes_eq_slice (beyond : Beyond) (buf : List BYTE) (n off : Nat)
    (h : n = 0 ∨ off + n ≤ buf.length) : loadBytes beyond buf off n = slice buf off n := by
  induction n generalizing off with
  | zero => simp [loadBytes, slice]
  | succ n ih =>
    have hlt : off < buf.length := by omega
    have hb : byteAt beyond buf off = buf[off] := by
      simp [byteAt, List.getElem?_eq_getElem hlt]
    rw [loadBytes, hb, ih (off + 1) (by omega)]
    unfold slice
    rw [List.drop_eq_getElem_cons hlt, List.take_succ_cons]

theorem loadU16_eq (beyond : Beyond) (buf : List BYTE) (off : Nat)
    (h : off + 2 ≤ buf.length) : fromLe (loadBytes beyond buf off 2) = field16 buf off := by
  rw [loadBytes_eq_slice beyond buf 2 off (Or.inr h)]; rfl

theorem loadU32_eq (beyond : Beyond) (buf : List BYTE) (off : Nat)
    (h : off + 4 ≤ buf.length) : fromLe (loadBytes beyond buf off 4) = field32 buf off := by
  rw [loadBytes_eq_slice beyond buf 4 off (Or.inr h)]; rfl

/-- The unchecked mount-point decode on a record with a tag: the result is `true` exactly
when the tag is the mount-point tag. -/
theorem ReadMountPoint_decode_unchecked_isSome (beyond : Beyond) (buf : List BYTE)
    (h4 : 4 ≤ buf.length) :
    ((ReadMountPoint_decode_unchecked beyond buf).isSome = true ↔
      field32 buf 0 = IO_REPARSE_TAG_MOUNT_POINT) := by
  unfold ReadMountPoint_decode_unchecked
  simp only [off_ReparseTag, loadU32_eq beyond buf 0 (by omega)]
  by_cases htag : field32 buf 0 = IO_REPARSE_TAG_MOUNT_POINT
  · simp [htag]
  · simp [htag]

/-- The unchecked symlink decode on a record with a tag: the result is `true` exactly when
the tag is the symlink tag. -/
theorem ReadSymlink_decode_unchecked_isSome (beyond : Beyond) (buf : List BYTE)
    (h4 : 4 ≤ buf.length) :
    ((ReadSymlink_decode_unchecked beyond buf).isSome = true ↔
      field32 buf 0 = IO_REPARSE_TAG_SYMLINK) := by
  unfold ReadSymlink_decode_unchecked
  simp only [off_ReparseTag, loadU32_eq beyond buf 0 (by omega)]
  by_cases htag : field32 buf 0 = IO_REPARSE_TAG_SYMLINK
  · simp [htag]
  · simp [htag]

theorem readU32_short (buf : List BYTE) (h : buf.length < 4) :
    ReadMountPoint_decode buf = Mem.outOfBounds ∧ ReadSymlink_decode buf = Mem.outOfBounds := by
  constructor
  · rw [ReadMountPoint_decode, off_ReparseTag, readU32_oob _ 0 (by omega)]; rfl
  · rw [ReadSymlink_decode, off_ReparseTag, readU32_oob _ 0 (by omega)]; rfl

/-- The checked and the unchecked mount-point decode agree whenever the checked one
completes: the unchecked decode then returns the same result, whatever follows the
buffer. -/
theorem ReadMountPoint_decode_unchecked_of_done (beyond : Beyond) (buf : List BYTE)
    (r : Option (wstring × wstring)) (h : ReadMountPoint_decode buf = Mem.done r) :
    ReadMountPoint_decode_unchecked beyond buf = r := by
  have h4 : 4 ≤ buf.length := by
    by_contra hlt
    rw [(readU32_short buf (by omega)).1] at h
    cases h
  by_cases htag : field32 buf 0 = IO_REPARSE_TAG_MOUNT_POINT
  · obtain ⟨-, hoob⟩ := ReadMountPoint_decode_tagged buf h4 htag
    have hin : 16 ≤ buf.length ∧
        inBounds buf (16 + 2 * (field16 buf 8 / 2)) (field16 buf 10 / 2) ∧
        inBounds buf (16 + 2 * (field16 buf 12 / 2)) (field16 buf 14 / 2) := by
      by_contra hnot
      rw [hoob.mpr hnot] at h
      cases h
    obtain ⟨h16, hT, hP⟩ := hin
    rw [ReadMountPoint_decode_eq buf h16 htag, readWString_eq _ _ _ hT,
      readWString_eq _ _ _ hP] at h
    simp only [Mem.done_bind, Mem.done.injEq] at h
    rw [← h]
    unfold ReadMountPoint_decode_unchecked
    unfold inBounds at hT hP
    simp only [off_ReparseTag, off_SubstituteNameOffset, off_SubstituteNameLength,
      off_PrintNameOffset, off_PrintNameLength, off_MountPoint_PathBuffer,
      loadU32_eq beyond buf 0 (by omega), loadU16_eq beyond buf 8 (by omega),
      loadU16_eq beyond buf 10 (by omega), loadU16_eq beyond buf 12 (by omega),
      loadU16_eq beyond buf 14 (by omega), htag, if_true]
    rw [loadBytes_eq_slice beyond buf _ _ (by omega),
      loadBytes_eq_slice beyond buf _ _ (by omega)]
  · rw [ReadMountPoint_decode_mismatch buf h4 htag] at h
    simp only [Mem.done.injEq] at h
    rw [← h]
    unfold ReadMountPoint_decode_unchecked
    simp only [off_ReparseTag, loadU32_eq beyond buf 0 (by omega), htag, if_false]

/-- The checked and the unchecked symlink decode agree whenever the checked one
completes. -/
theorem ReadSymlink_decode_unchecked_of_done (beyond : Beyond) (buf : List BYTE)
    (r : Option (wstring × wstring × Nat)) (h : ReadSymlink_decode buf = Mem.done r) :
    ReadSymlink_decode_unchecked beyond buf = r := by
  have h4 : 4 ≤ buf.length := by
    by_contra hlt
    rw [(readU32_short buf (by omega)).2] at h
    cases h
  by_cases htag : field32 buf 0 = IO_REPARSE_TAG_SYMLINK
  · obtain ⟨-, hoob⟩ := ReadSymlink_decode_tagged buf h4 htag
    have hin : 20 ≤ buf.length ∧
        inBounds buf (20 + 2 * (field16 buf 8 / 2)) (field16 buf 10 / 2) ∧
        inBounds buf (20 + 2 * (field16 buf 12 / 2)) (field16 buf 14 / 2) := by
      by_contra hnot
      rw [hoob.mpr hnot] at h
      cases h
    obtain ⟨h20, hT, hP⟩ := hin
    rw [ReadSymlink_decode_eq buf h20 htag, readWString_eq _ _ _ hT,
      readWString_eq _ _ _ hP] at h
    simp only [Mem.done_bind, Mem.done.injEq] at h
    rw [← h]
    unfold ReadSymlink_decode_unchecked
    unfold inBounds at hT hP
    simp only [off_ReparseTag, off_SubstituteNameOffset, off_SubstituteNameLength,
      off_PrintNameOffset, off_PrintNameLength, off_Symlink_PathBuffer, off_Symlink_Flags,
      loadU32_eq beyond buf 0 (by omega), loadU16_eq beyond buf 8 (by omega),
      loadU16_eq beyond buf 10 (by omega), loadU16_eq beyond buf 12 (by omega),
      loadU16_eq beyond buf 14 (by omega), loadU32_eq beyond buf 16 (by omega), htag, if_true]
    rw [loadBytes_eq_slice beyond buf _ _ (by omega),
      loadBytes_eq_slice beyond buf _ _ (by omega)]
  · rw [ReadSymlink_decode_mismatch buf h4 htag] at h
    simp only [Mem.done.injEq] at h
    rw [← h]
    unfold ReadSymlink_decode_unchecked
    simp only [off_ReparseTag, loadU32_eq beyond buf 0 (by omega), htag, if_false]

/-! ## Typed reads, as the machine runs them -/

theorem ReadMountPoint_unchecked_of_read (os : Os) (A : typed_buffer_alloc) (beyond : Beyond)
    (path : wstring) (st st' : State) (record : List BYTE)
    (h : ReadReparsePoint os A path st = (some record, st')) :
    ReadMountPoint_unchecked os A beyond path st =
      (ReadMountPoint_decode_unchecked beyond record, st') := by
  unfold ReadMountPoint_unchecked
  rw [h]

theorem ReadSymlink_unchecked_of_read (os : Os) (A : typed_buffer_alloc) (beyond : Beyond)
    (path : wstring) (st st' : State) (record : List BYTE)
    (h : ReadReparsePoint os A path st = (some record, st')) :
    ReadSymlink_unchecked os A beyond path st =
      (ReadSymlink_decode_unchecked beyond record, st') := by
  unfold ReadSymlink_unchecked
  rw [h]

/-- The unchecked decodes return `true` exactly when the tag they load is theirs. -/
theorem decode_unchecked_isSome_loaded (beyond : Beyond) (buf : List BYTE) :
    ((ReadMountPoint_decode_unchecked beyond buf).isSome = true ↔
      fromLe (loadBytes beyond buf off_ReparseTag 4) = IO_REPARSE_TAG_MOUNT_POINT) ∧
    ((ReadSymlink_decode_unchecked beyond buf).isSome = true ↔
      fromLe (loadBytes beyond buf off_ReparseTag 4) = IO_REPARSE_TAG_SYMLINK) := by
  constructor
  · unfold ReadMountPoint_decode_unchecked
    by_cases htag : fromLe (loadBytes beyond buf off_ReparseTag 4) = IO_REPARSE_TAG_MOUNT_POINT
    · simp [htag]
    · simp [htag]
  · unfold ReadSymlink_decode_unchecked
    by_cases htag : fromLe (loadBytes beyond buf off_ReparseTag 4) = IO_REPARSE_TAG_SYMLINK
    · simp [htag]
    · simp [htag]

/-- C16. Typed reads succeed exactly on a matching tag: for every record that the read
collaborator returns successfully, `ReadMountPoint` returns success if and only if the tag
it loads is `0xA0000003`, and `ReadSymlink` returns success if and only if the tag it loads
is `0xA000000C`, whatever the rest of the record holds and whatever bytes follow it in
memory; on a record of at least 4 bytes the tag loaded is the record's tag.  So
`ReadMountPoint` fails on every buffer built by `BuildSymlink` and `ReadSymlink` fails on
every buffer built by `BuildMountPoint`.  The bounds-checked run agrees: on a record of at
least 4 bytes it ends in failure exactly on a tag mismatch, and whenever it completes the
unchecked run returns the same result. -/
theorem C16_typed_reads (os : Os) (A : typed_buffer_alloc) (path : wstring) (st st' : State)
    (record : List BYTE) (hread : ReadReparsePoint os A path st = (some record, st')) :
    (∀ beyond : Beyond, ((ReadMountPoint_unchecked os A beyond path st).1.isSome = true ↔
      fromLe (loadBytes beyond record off_ReparseTag 4) = 0xA0000003)) ∧
    (∀ beyond : Beyond, ((ReadSymlink_unchecked os A beyond path st).1.isSome = true ↔
      fromLe (loadBytes beyond record off_ReparseTag 4) = 0xA000000C)) ∧
    (4 ≤ record.length →
      (∀ beyond : Beyond, ((ReadMountPoint_unchecked os A beyond path st).1.isSome = true ↔
        field32 record 0 = 0xA0000003)) ∧
      (∀ beyond : Beyond, ((ReadSymlink_unchecked os A beyond path st).1.isSome = true ↔
        field32 record 0 = 0xA000000C)) ∧
      (ReadMountPoint os A path st = Mem.done (none, st') ↔ field32 record 0 ≠ 0xA0000003) ∧
      (ReadSymlink os A path st = Mem.done (none, st') ↔ field32 record 0 ≠ 0xA000000C)) ∧
    (∀ (beyond : Beyond) (r : Option (wstring × wstring)),
      ReadMountPoint os A path st = Mem.done (r, st') →
      ReadMountPoint_unchecked os A beyond path st = (r, st')) ∧
    (∀ (beyond : Beyond) (r : Option (wstring × wstring × Nat)),
      ReadSymlink os A path st = Mem.done (r, st') →
      ReadSymlink_unchecked os A beyond path st = (r, st')) ∧
    (∀ (B : typed_buffer_alloc) (T P : wstring) (relative : Bool),
      BuildSymlink B T P relative = Mem.done record →
      ReadMountPoint os A path st = Mem.done (none, st') ∧
      ∀ beyond : Beyond, ReadMountPoint_unchecked os A beyond path st = (none, st')) ∧
    (∀ (B : typed_buffer_alloc) (T P : wstring),
      BuildMountPoint B T P = Mem.done record →
      ReadSymlink os A path st = Mem.done (none, st') ∧
      ∀ beyond : Beyond, ReadSymlink_unchecked os A beyond path st = (none, st')) := by
  have hM := ReadMountPoint_of_read os A path st st' record hread
  have hS := ReadSymlink_of_read os A path st st' record hread
  have hMu := fun beyond => ReadMountPoint_unchecked_of_read os A beyond path st st' record hread
  have hSu := fun beyond => ReadSymlink_unchecked_of_read os A beyond path st st' record hread
  have agreeM : ∀ (beyond : Beyond) (r : Option (wstring × wstring)),
      ReadMountPoint os A path st = Mem.done (r, st') →
      ReadMountPoint_unchecked os A beyond path st = (r, st') := by
    intro beyond r h
    rw [hM, Mem.bind_done_eq] at h
    rw [hMu, ReadMountPoint_decode_unchecked_of_done beyond record r h]
  have agreeS : ∀ (beyond : Beyond) (r : Option (wstring × wstring × Nat)),
      ReadSymlink os A path st = Mem.done (r, st') →
      ReadSymlink_unchecked os A beyond path st = (r, st') := by
    intro beyond r h
    rw [hS, Mem.bind_done_eq] at h
    rw [hSu, ReadSymlink_decode_unchecked_of_done beyond record r h]
  have failM : 4 ≤ record.length → field32 record 0 ≠ IO_REPARSE_TAG_MOUNT_POINT →
      ReadMountPoint os A path st = Mem.done (none, st') := by
    intro h4 h; rw [hM, Mem.bind_done_eq]; exact (ReadMountPoint_decode_outcome record h4).1.mpr h
  have failS : 4 ≤ record.length → field32 record 0 ≠ IO_REPARSE_TAG_SYMLINK →
      ReadSymlink os A path st = Mem.done (none, st') := by
    intro h4 h; rw [hS, Mem.bind_done_eq]; exact (ReadSymlink_decode_outcome record h4).1.mpr h
  refine ⟨?_, ?_, fun h4 => ⟨?_, ?_, ?_, ?_⟩, agreeM, agreeS, ?_, ?_⟩
  · intro beyond
    rw [hMu]
    exact (decode_unchecked_isSome_loaded beyond record).1
  · intro beyond
    rw [hSu]
    exact (decode_unchecked_isSome_loaded beyond record).2
  · intro beyond
    rw [hMu]
    exact ReadMountPoint_decode_unchecked_isSome beyond record h4
  · intro beyond
    rw [hSu]
    exact ReadSymlink_decode_unchecked_isSome beyond record h4
  · rw [hM, Mem.bind_done_eq]; exact (ReadMountPoint_decode_outcome record h4).1
  · rw [hS, Mem.bind_done_eq]; exact (ReadSymlink_decode_outcome record h4).1
  · intro B T P relative hb
    obtain ⟨buffer, hb', hlen, htag⟩ := BuildSymlink_tag B T P relative
    rw [hb] at hb'
    cases hb'
    have hf := failM (by omega) (by rw [htag]; decide)
    exact ⟨hf, fun beyond => agreeM beyond none hf⟩
  · intro B T P hb
    obtain ⟨buffer, hb', hlen, htag⟩ := BuildMountPoint_tag B T P
    rw [hb] at hb'
    cases hb'
    have hf := failS (by omega) (by rw [htag]; decide)
    exact ⟨hf, fun beyond => agreeS beyond none hf⟩

theorem C16_typed_reads_witness :
    ReadReparsePoint (replayOs sampleOverrun) zeroed [100] ⟨0, []⟩ =
      (some sampleOverrun, stateAfterGet (replayOs sampleOverrun) [100] 4096 ⟨0, []⟩) ∧
    4 ≤ sampleOverrun.length ∧
    field32 sampleOverrun 0 = 0xA0000003 ∧
    (ReadMountPoint_unchecked (replayOs sampleOverrun) zeroed (fun _ => 0) [100]
      ⟨0, []⟩).1.isSome = true ∧
    ReadSymlink (replayOs sampleOverrun) zeroed [100] ⟨0, []⟩ =
      Mem.done (none, stateAfterGet (replayOs sampleOverrun) [100] 4096 ⟨0, []⟩) :=
  ⟨ReadReparsePoint_eq (replayOs sampleOverrun) zeroed [100] ⟨0, []⟩ _ rfl, by decide,
    by decide,
    (((C16_typed_reads (replayOs sampleOverrun) zeroed [100] ⟨0, []⟩ _ sampleOverrun
      (ReadReparsePoint_eq (replayOs sampleOverrun) zeroed [100] ⟨0, []⟩ _ rfl)).2.2.1
      (by decide)).1 (fun _ => 0)).mpr (by decide),
    ((C16_typed_reads (replayOs sampleOverrun) zeroed [100] ⟨0, []⟩ _ sampleOverrun
      (ReadReparsePoint_eq (replayOs sampleOverrun) zeroed [100] ⟨0, []⟩ _ rfl)).2.2.1
      (by decide)).2.2.2.mpr (by decide)⟩

/-! ## What the decoders return and when they leave the buffer -/

theorem length_reparsePointData (A : typed_buffer_alloc) (record : List BYTE) :
    (reparsePointData A record).length = 16384 := by
  unfold reparsePointData
  rw [length_stored, A.size_init]; rfl

theorem slice_reparsePointData (A : typed_buffer_alloc) (record : List BYTE) (o n : Nat)
    (h : o + n ≤ record.length) (hk : o + n ≤ 16384) :
    slice (reparsePointData A record) o n = slice record o n := by
  unfold reparsePointData
  exact slice_stored _ _ _ _ h (by rw [A.size_init]; exact hk)

/-- The mount-point decode on a tagged buffer: the declared slices when every load stays
inside the buffer, an access outside it otherwise. -/
theorem ReadMountPoint_decode_cases (buf : List BYTE) (h4 : 4 ≤ buf.length)
    (htag : field32 buf 0 = IO_REPARSE_TAG_MOUNT_POINT) :
    ((16 ≤ buf.length ∧
        inBounds buf (16 + 2 * (field16 buf 8 / 2)) (field16 buf 10 / 2) ∧
        inBounds buf (16 + 2 * (field16 buf 12 / 2)) (field16 buf 14 / 2)) →
      ReadMountPoint_decode buf = Mem.done (some
        (wchars (slice buf (16 + 2 * (field16 buf 8 / 2)) (2 * (field16 buf 10 / 2))),
          wchars (slice buf (16 + 2 * (field16 buf 12 / 2)) (2 * (field16 buf 14 / 2)))))) ∧
    (¬ (16 ≤ buf.length ∧
        inBounds buf (16 + 2 * (field16 buf 8 / 2)) (field16 buf 10 / 2) ∧
        inBounds buf (16 + 2 * (field16 buf 12 / 2)) (field16 buf 14 / 2)) →
      ReadMountPoint_decode buf = Mem.outOfBounds) := by
  constructor
  · rintro ⟨h16, hT, hP⟩
    rw [ReadMountPoint_decode_eq buf h16 htag, readWString_eq _ _ _ hT,
      readWString_eq _ _ _ hP]
    rfl
  · intro hnot
    exact (ReadMountPoint_decode_tagged buf h4 htag).2.mpr hnot

/-- The symlink decode on a tagged buffer: the declared slices and the flags when every
load stays inside the buffer, an access outside it otherwise. -/
theorem ReadSymlink_decode_cases (buf : List BYTE) (h4 : 4 ≤ buf.length)
    (htag : field32 buf 0 = IO_REPARSE_TAG_SYMLINK) :
    ((20 ≤ buf.length ∧
        inBounds buf (20 + 2 * (field16 buf 8 / 2)) (field16 buf 10 / 2) ∧
        inBounds buf (20 + 2 * (field16 buf 12 / 2)) (field16 buf 14 / 2)) →
      ReadSymlink_decode buf = Mem.done (some
        (wchars (slice buf (20 + 2 * (field16 buf 8 / 2)) (2 * (field16 buf 10 / 2))),
          wchars (slice buf (20 + 2 * (field16 buf 12 / 2)) (2 * (field16 buf 14 / 2))),
          field32 buf 16))) ∧
    (¬ (20 ≤ buf.length ∧
        inBounds buf (20 + 2 * (field16 buf 8 / 2)) (field16 buf 10 / 2) ∧
        inBounds buf (20 + 2 * (field16 buf 12 / 2)) (field16 buf 14 / 2)) →
      ReadSymlink_decode buf = Mem.outOfBounds) := by
  constructor
  · rintro ⟨h20, hT, hP⟩
    rw [ReadSymlink_decode_eq buf h20 htag, readWString_eq _ _ _ hT,
      readWString_eq _ _ _ hP]
    rfl
  · intro hnot
    exact (ReadSymlink_decode_tagged buf h4 htag).2.mpr hnot

/-- The method `GetMountPointTarget` on a stored record tagged mount-point: the substitute
name is loaded from the 16 KiB buffer, inside it or not. -/
theorem GetMountPointTarget_tagged (os : Os) (A : typed_buffer_alloc) (path : wstring)
    (st : State) (record : List BYTE)
    (hvalid : os.IsValid (os.CreateFileW st.calls path false) = true)
    (hget : os.GetReparsePoint (st.calls ++ [OsCall.CreateFileW path false])
      (os.CreateFileW st.calls path false) MAXIMUM_REPARSE_DATA_BUFFER_SIZE = some record)
    (h4 : 4 ≤ record.length) (htag : field32 record 0 = IO_REPARSE_TAG_MOUNT_POINT) :
    (inBounds (reparsePointData A record)
        (16 + 2 * (field16 (reparsePointData A record) 8 / 2))
        (field16 (reparsePointData A record) 10 / 2) →
      GetMountPointTarget os A path st = Mem.done
        (wchars (slice (reparsePointData A record)
          (16 + 2 * (field16 (reparsePointData A record) 8 / 2))
          (2 * (field16 (reparsePointData A record) 10 / 2))),
          stateAfterGet os path MAXIMUM_REPARSE_DATA_BUFFER_SIZE st)) ∧
    (¬ inBounds (reparsePointData A record)
        (16 + 2 * (field16 (reparsePointData A record) 8 / 2))
        (field16 (reparsePointData A record) 10 / 2) →
      GetMountPointTarget os A path st = Mem.outOfBounds) := by
  have hB := length_reparsePointData A record
  have htagB : field32 (reparsePointData A record) 0 = IO_REPARSE_TAG_MOUNT_POINT := by
    unfold field32
    rw [slice_reparsePointData A record 0 4 (by omega) (by omega)]
    exact htag
  have hrun := GetMountPointTarget_eq os A path st record hvalid hget
  change GetMountPointTarget os A path st =
    (GetMountPointTarget_decode (reparsePointData A record)
      (stateAfterGet os path MAXIMUM_REPARSE_DATA_BUFFER_SIZE st).g_last_error >>= fun r =>
        Mem.done (r.1, { stateAfterGet os path MAXIMUM_REPARSE_DATA_BUFFER_SIZE st with
          g_last_error := r.2 })) at hrun
  rw [GetMountPointTarget_decode_eq _ _ (by omega) htagB] at hrun
  constructor
  · intro hin
    rw [hrun, readWString_eq _ _ _ hin]
    rfl
  · intro hnot
    rw [hrun, readWString_oob _ _ _ hnot]
    rfl

/-- C6 (amended). The decoders make no bounds check.  For every buffer of at least 4 bytes
that `ReadReparsePoint` returns and that is tagged mount-point, `ReadMountPoint` never
reports failure: when the four fields end by byte 16 and each declared string of at least
one code unit (`length / 2` code units from `PathBuffer + 2 * (offset / 2)`) ends inside
the buffer, it returns exactly those two slices; otherwise it reads bytes beyond the
buffer.  `ReadSymlink` does the same on every buffer tagged symlink, with byte 20 and the
`Flags` stored at byte 16.  When the path opens and the system call stores a record of at
least 4 bytes tagged mount-point, `GetMountPointTarget` decodes a buffer of 16384 bytes
that starts with the record: it returns the substitute-name slice of that buffer,
recording no error, when the slice ends inside the 16384 bytes, and otherwise reads bytes
beyond the buffer. -/
theorem C6_decode_unchecked (os : Os) (A : typed_buffer_alloc) (path : wstring)
    (st st' : State) (buf : List BYTE) (h4 : 4 ≤ buf.length) :
    (ReadReparsePoint os A path st = (some buf, st') →
      field32 buf 0 = IO_REPARSE_TAG_MOUNT_POINT →
      ReadMountPoint os A path st ≠ Mem.done (none, st') ∧
      ((16 ≤ buf.length ∧
          inBounds buf (16 + 2 * (field16 buf 8 / 2)) (field16 buf 10 / 2) ∧
          inBounds buf (16 + 2 * (field16 buf 12 / 2)) (field16 buf 14 / 2)) →
        ReadMountPoint os A path st = Mem.done (some
          (wchars (slice buf (16 + 2 * (field16 buf 8 / 2)) (2 * (field16 buf 10 / 2))),
            wchars (slice buf (16 + 2 * (field16 buf 12 / 2)) (2 * (field16 buf 14 / 2)))),
          st')) ∧
      (¬ (16 ≤ buf.length ∧
          inBounds buf (16 + 2 * (field16 buf 8 / 2)) (field16 buf 10 / 2) ∧
          inBounds buf (16 + 2 * (field16 buf 12 / 2)) (field16 buf 14 / 2)) →
        ReadMountPoint os A path st = Mem.outOfBounds)) ∧
    (ReadReparsePoint os A path st = (some buf, st') →
      field32 buf 0 = IO_REPARSE_TAG_SYMLINK →
      ReadSymlink os A path st ≠ Mem.done (none, st') ∧
      ((20 ≤ buf.length ∧
          inBounds buf (20 + 2 * (field16 buf 8 / 2)) (field16 buf 10 / 2) ∧
          inBounds buf (20 + 2 * (field16 buf 12 / 2)) (field16 buf 14 / 2)) →
        ReadSymlink os A path st = Mem.done (some
          (wchars (slice buf (20 + 2 * (field16 buf 8 / 2)) (2 * (field16 buf 10 / 2))),
            wchars (slice buf (20 + 2 * (field16 buf 12 / 2)) (2 * (field16 buf 14 / 2))),
            field32 buf 16), st')) ∧
      (¬ (20 ≤ buf.length ∧
          inBounds buf (20 + 2 * (field16 buf 8 / 2)) (field16 buf 10 / 2) ∧
          inBounds buf (20 + 2 * (field16 buf 12 / 2)) (field16 buf 14 / 2)) →
        ReadSymlink os A path st = Mem.outOfBounds)) ∧
    (os.IsValid (os.CreateFileW st.calls path false) = true →
      os.GetReparsePoint (st.calls ++ [OsCall.CreateFileW path false])
        (os.CreateFileW st.calls path false) MAXIMUM_REPARSE_DATA_BUFFER_SIZE = some buf →
      field32 buf 0 = IO_REPARSE_TAG_MOUNT_POINT →
      (reparsePointData A buf).length = 16384 ∧
      (∀ o n : Nat, o + n ≤ buf.length → o + n ≤ 16384 →
        slice (reparsePointData A buf) o n = slice buf o n) ∧
      (inBounds (reparsePointData A buf)
          (16 + 2 * (field16 (reparsePointData A buf) 8 / 2))
          (field16 (reparsePointData A buf) 10 / 2) →
        GetMountPointTarget os A path st = Mem.done
          (wchars (slice (reparsePointData A buf)
            (16 + 2 * (field16 (reparsePointData A buf) 8 / 2))
            (2 * (field16 (reparsePointData A buf) 10 / 2))),
            stateAfterGet os path MAXIMUM_REPARSE_DATA_BUFFER_SIZE st)) ∧
      (¬ inBounds (reparsePointData A buf)
          (16 + 2 * (field16 (reparsePointData A buf) 8 / 2))
          (field16 (reparsePointData A buf) 10 / 2) →
        GetMountPointTarget os A path st = Mem.outOfBounds)) := by
  refine ⟨fun hread htag => ?_, fun hread htag => ?_, fun hvalid hget htag => ?_⟩
  · have hM := ReadMountPoint_of_read os A path st st' buf hread
    obtain ⟨c1, c2⟩ := ReadMountPoint_decode_cases buf h4 htag
    refine ⟨?_, fun hin => ?_, fun hnot => ?_⟩
    · rw [hM]
      intro h
      exact (ReadMountPoint_decode_tagged buf h4 htag).1 ((Mem.bind_done_eq _ _ _).mp h)
    · rw [hM, c1 hin]; rfl
    · rw [hM, c2 hnot]; rfl
  · have hS := ReadSymlink_of_read os A path st st' buf hread
    obtain ⟨c1, c2⟩ := ReadSymlink_decode_cases buf h4 htag
    refine ⟨?_, fun hin => ?_, fun hnot => ?_⟩
    · rw [hS]
      intro h
      exact (ReadSymlink_decode_tagged buf h4 htag).1 ((Mem.bind_done_eq _ _ _).mp h)
    · rw [hS, c1 hin]; rfl
    · rw [hS, c2 hnot]; rfl
  · exact ⟨length_reparsePointData A buf, slice_reparsePointData A buf,
      GetMountPointTarget_tagged os A path st buf hvalid hget h4 htag⟩

theorem C6_decode_unchecked_witness :
    4 ≤ sampleMountPoint.length ∧
    ReadReparsePoint (replayOs sampleMountPoint) zeroed [100] ⟨0, []⟩ =
      (some sampleMountPoint, stateAfterGet (replayOs sampleMountPoint) [100] 4096 ⟨0, []⟩) ∧
    (replayOs sampleMountPoint).IsValid
      ((replayOs sampleMountPoint).CreateFileW [] [100] false) = true ∧
    (replayOs sampleMountPoint).GetReparsePoint ([] ++ [OsCall.CreateFileW [100] false])
      ((replayOs sampleMountPoint).CreateFileW [] [100] false)
      MAXIMUM_REPARSE_DATA_BUFFER_SIZE = some sampleMountPoint ∧
    field32 sampleMountPoint 0 = IO_REPARSE_TAG_MOUNT_POINT ∧
    (16 ≤ sampleMountPoint.length ∧
      inBounds sampleMountPoint (16 + 2 * (field16 sampleMountPoint 8 / 2))
        (field16 sampleMountPoint 10 / 2) ∧
      inBounds sampleMountPoint (16 + 2 * (field16 sampleMountPoint 12 / 2))
        (field16 sampleMountPoint 14 / 2)) ∧
    ReadMountPoint (replayOs sampleMountPoint) zeroed [100] ⟨0, []⟩ = Mem.done (some
      (wchars (slice sampleMountPoint (16 + 2 * (field16 sampleMountPoint 8 / 2))
          (2 * (field16 sampleMountPoint 10 / 2))),
        wchars (slice sampleMountPoint (16 + 2 * (field16 sampleMountPoint 12 / 2))
          (2 * (field16 sampleMountPoint 14 / 2)))),
      stateAfterGet (replayOs sampleMountPoint) [100] 4096 ⟨0, []⟩) ∧
    wchars (slice sampleMountPoint (16 + 2 * (field16 sampleMountPoint 8 / 2))
      (2 * (field16 sampleMountPoint 10 / 2))) = [65, 66] ∧
    wchars (slice sampleMountPoint (16 + 2 * (field16 sampleMountPoint 12 / 2))
      (2 * (field16 sampleMountPoint 14 / 2))) = [67] ∧
    GetMountPointTarget (replayOs sampleMountPoint) zeroed [100] ⟨0, []⟩ = Mem.done
      (wchars (slice (reparsePointData zeroed sampleMountPoint)
        (16 + 2 * (field16 (reparsePointData zeroed sampleMountPoint) 8 / 2))
        (2 * (field16 (reparsePointData zeroed sampleMountPoint) 10 / 2))),
        stateAfterGet (replayOs sampleMountPoint) [100] MAXIMUM_REPARSE_DATA_BUFFER_SIZE
          ⟨0, []⟩) ∧
    wchars (slice (reparsePointData zeroed sampleMountPoint)
      (16 + 2 * (field16 (reparsePointData zeroed sampleMountPoint) 8 / 2))
      (2 * (field16 (reparsePointData zeroed sampleMountPoint) 10 / 2))) = [65, 66] := by
  have hread := ReadReparsePoint_eq (replayOs sampleMountPoint) zeroed [100] ⟨0, []⟩
    sampleMountPoint rfl
  have h4 : 4 ≤ sampleMountPoint.length := by decide
  have hvalid : (replayOs sampleMountPoint).IsValid
      ((replayOs sampleMountPoint).CreateFileW [] [100] false) = true := by decide
  have htag : field32 sampleMountPoint 0 = IO_REPARSE_TAG_MOUNT_POINT := by decide
  obtain ⟨cM, -, cG⟩ := C6_decode_unchecked (replayOs sampleMountPoint) zeroed [100] ⟨0, []⟩
    (stateAfterGet (replayOs sampleMountPoint) [100] 4096 ⟨0, []⟩) sampleMountPoint h4
  obtain ⟨-, g2, g3, -⟩ := cG hvalid rfl htag
  have f8 : field16 (reparsePointData zeroed sampleMountPoint) 8 = 0 := by
    unfold field16
    rw [g2 8 2 (by decide) (by decide)]
    decide
  have f10 : field16 (reparsePointData zeroed sampleMountPoint) 10 = 4 := by
    unfold field16
    rw [g2 10 2 (by decide) (by decide)]
    decide
  have hin : inBounds (reparsePointData zeroed sampleMountPoint)
      (16 + 2 * (field16 (reparsePointData zeroed sampleMountPoint) 8 / 2))
      (field16 (reparsePointData zeroed sampleMountPoint) 10 / 2) := by
    unfold inBounds
    rw [f8, f10, length_reparsePointData]
    decide
  have hs : wchars (slice (reparsePointData zeroed sampleMountPoint)
      (16 + 2 * (field16 (reparsePointData zeroed sampleMountPoint) 8 / 2))
      (2 * (field16 (reparsePointData zeroed sampleMountPoint) 10 / 2))) = [65, 66] := by
    rw [f8, f10, g2 _ _ (by decide) (by decide)]
    decide
  exact ⟨h4, hread, hvalid, rfl, htag, ⟨by decide, by decide, by decide⟩,
    (cM hread htag).2.1 ⟨by decide, by decide, by decide⟩, by decide, by decide,
    g3 hin, hs⟩

/-- C6 as stated fails: no decoder reports failure on a record whose strings or fields
extend past the end of the buffer.  On a mount-point record of 20 bytes that declares a
substitute name of 8 bytes in its 4-byte path buffer, on the same kind of record cut after
its 8-byte header, and on a symlink record of 24 bytes with the same overrun, the decode
reads beyond the buffer that `ReadReparsePoint` returned and, whatever bytes follow the
buffer, the run returns success; on a mount-point record that declares a substitute name
of 65534 bytes, `GetMountPointTarget` reads beyond its buffer of 16384 bytes. -/
theorem C6_counterexample :
    (ReadMountPoint (replayOs sampleOverrun) zeroed [100] ⟨0, []⟩ = Mem.outOfBounds ∧
      ∀ beyond : Beyond, (ReadMountPoint_unchecked (replayOs sampleOverrun) zeroed beyond [100]
        ⟨0, []⟩).1.isSome = true) ∧
    (ReadMountPoint (replayOs sampleHeaderOnly) zeroed [100] ⟨0, []⟩ = Mem.outOfBounds ∧
      ∀ beyond : Beyond, (ReadMountPoint_unchecked (replayOs sampleHeaderOnly) zeroed beyond
        [100] ⟨0, []⟩).1.isSome = true) ∧
    (ReadSymlink (replayOs sampleSymlinkOverrun) zeroed [100] ⟨0, []⟩ = Mem.outOfBounds ∧
      ∀ beyond : Beyond, (ReadSymlink_unchecked (replayOs sampleSymlinkOverrun) zeroed beyond
        [100] ⟨0, []⟩).1.isSome = true) ∧
    GetMountPointTarget (replayOs sampleHuge) zeroed [100] ⟨0, []⟩ = Mem.outOfBounds := by
  have r1 := ReadReparsePoint_eq (replayOs sampleOverrun) zeroed [100] ⟨0, []⟩
    sampleOverrun rfl
  have r2 := ReadReparsePoint_eq (replayOs sampleHeaderOnly) zeroed [100] ⟨0, []⟩
    sampleHeaderOnly rfl
  have r3 := ReadReparsePoint_eq (replayOs sampleSymlinkOverrun) zeroed [100] ⟨0, []⟩
    sampleSymlinkOverrun rfl
  have d1 : ReadMountPoint_decode sampleOverrun = Mem.outOfBounds := by decide
  have d2 : ReadMountPoint_decode sampleHeaderOnly = Mem.outOfBounds := by decide
  have d3 : ReadSymlink_decode sampleSymlinkOverrun = Mem.outOfBounds := by decide
  refine ⟨⟨?_, fun beyond => ?_⟩, ⟨?_, fun beyond => ?_⟩, ⟨?_, fun beyond => ?_⟩, ?_⟩
  · rw [ReadMountPoint_of_read _ _ _ _ _ sampleOverrun r1, d1]; rfl
  · rw [ReadMountPoint_unchecked_of_read _ _ beyond _ _ _ sampleOverrun r1]
    have h4 : 4 ≤ sampleOverrun.length := by decide
    have htag : field32 sampleOverrun 0 = IO_REPARSE_TAG_MOUNT_POINT := by decide
    dsimp only
    exact (ReadMountPoint_decode_unchecked_isSome beyond sampleOverrun h4).mpr htag
  · rw [ReadMountPoint_of_read _ _ _ _ _ sampleHeaderOnly r2, d2]; rfl
  · rw [ReadMountPoint_unchecked_of_read _ _ beyond _ _ _ sampleHeaderOnly r2]
    have h4 : 4 ≤ sampleHeaderOnly.length := by decide
    have htag : field32 sampleHeaderOnly 0 = IO_REPARSE_TAG_MOUNT_POINT := by decide
    dsimp only
    exact (ReadMountPoint_decode_unchecked_isSome beyond sampleHeaderOnly h4).mpr htag
  · rw [ReadSymlink_of_read _ _ _ _ _ sampleSymlinkOverrun r3, d3]; rfl
  · rw [ReadSymlink_unchecked_of_read _ _ beyond _ _ _ sampleSymlinkOverrun r3]
    have h4 : 4 ≤ sampleSymlinkOverrun.length := by decide
    have htag : field32 sampleSymlinkOverrun 0 = IO_REPARSE_TAG_SYMLINK := by decide
    dsimp only
    exact (ReadSymlink_decode_unchecked_isSome beyond sampleSymlinkOverrun h4).mpr htag
  · have f8 : field16 (reparsePointData zeroed sampleHuge) 8 = 0 := by
      unfold field16
      rw [slice_reparsePointData zeroed sampleHuge 8 2 (by decide) (by decide)]
      decide
    have f10 : field16 (reparsePointData zeroed sampleHuge) 10 = 65534 := by
      unfold field16
      rw [slice_reparsePointData zeroed sampleHuge 10 2 (by decide) (by decide)]
      decide
    refine (GetMountPointTarget_tagged (replayOs sampleHuge) zeroed [100] ⟨0, []⟩ sampleHuge
      (by decide) rfl (by decide) (by decide)).2 ?_
    unfold inBounds
    rw [f8, f10, length_reparsePointData]
    decide

/-! ## Raw pass-through -/

/-- What `ReadRaw` returns when the buffer it is handed is a raw record. -/
theorem ReadRaw_of_record (os : Os) (A : typed_buffer_alloc) (path : wstring)
    (st st' : State) (tag : Nat) (bytes raw_data : List BYTE) (htag : tag < 4294967296)
    (hread : ReadReparsePoint os A path st =
      (some (le32 tag ++ (le16 (USHORT bytes.length) ++ (le16 0 ++ bytes))), st')) :
    bytes.length ≤ 4088 ∧
    ReadRaw os A path raw_data st = Mem.done (some (tag, bytes), st') := by
  have hlen := ReadReparsePoint_length os A path st st' _ hread
  have hb : bytes.length ≤ 4088 := by
    simp only [List.length_append, length_le32, length_le16] at hlen
    omega
  refine ⟨hb, ?_⟩
  rw [ReadRaw_of_read os A path raw_data st st' _ hread,
    readU32_eq _ 0 (by simp), readU16_eq _ 4 (by simp; omega)]
  have h0 : field32 (le32 tag ++ (le16 (USHORT bytes.length) ++ (le16 0 ++ bytes))) 0 = tag := by
    simp (disch := simp) only [field32, slice_append_left, fromLe_le32]
    exact Nat.mod_eq_of_lt htag
  have h4 : field16 (le32 tag ++ (le16 (USHORT bytes.length) ++ (le16 0 ++ bytes))) 4 =
      bytes.length := by
    simp (disch := simp) [field16, slice_append_right, slice_append_left, fromLe_le16, USHORT]
    omega
  have h8 : (le32 tag ++ (le16 (USHORT bytes.length) ++ (le16 0 ++ bytes))).drop 8 = bytes := by
    simp [le32, le16]
  simp only [Mem.done_bind, h0, h4, h8]
  rw [memcpy_over _ bytes bytes.length (length_vector_resize _ _) rfl]
  rfl

/-- The method `CreateRawMountPoint` builds the raw record and passes it to
`CreateMountPointInternal`. -/
theorem CreateRawMountPoint_eq (os : Os) (A : typed_buffer_alloc) (path : wstring)
    (tag : Nat) (bytes : List BYTE) (st : State) :
    CreateRawMountPoint os A path tag bytes st = Mem.done (CreateMountPointInternal os path
      (le32 tag ++ (le16 (USHORT bytes.length) ++ (le16 0 ++ bytes))) st) := by
  simp only [CreateRawMountPoint, CreateRawMountPoint_buffer_eq, Mem.done_bind, Mem.pure_eq]

/-- C12. Raw pass-through: for every 32-bit tag and every byte sequence `bytes`,
`CreateRawMountPoint(path, tag, bytes)` builds one record, the 8-byte header of tag, length
and reserved 0 followed by `bytes`: the method completes with what
`CreateMountPointInternal` returns on that record, and on a path that opens the record is
the payload of its set-reparse-point call.  When that record is the buffer
`ReadReparsePoint` hands to `ReadRaw`, `ReadRaw` succeeds and returns that tag and exactly
the original bytes.  (A record that `ReadReparsePoint` returns fits the 4096 bytes it asks
for, so `bytes` then has at most 4088 bytes and its length is stored without
truncation.) -/
theorem C12_raw_pass_through (B : typed_buffer_alloc) (tag : Nat) (bytes : List BYTE)
    (htag : tag < 4294967296) :
    ∃ record : List BYTE,
      record = le32 tag ++ le16 (USHORT bytes.length) ++ le16 0 ++ bytes ∧
      CreateRawMountPoint_buffer B tag bytes = Mem.done record ∧
      (∀ (os : Os) (path : wstring) (st0 : State),
        CreateRawMountPoint os B path tag bytes st0 =
          Mem.done (CreateMountPointInternal os path record st0) ∧
        (os.IsValid (os.CreateFileW st0.calls path true) = true →
          (CreateMountPointInternal os path record st0).2.calls =
            st0.calls ++ [OsCall.CreateFileW path true,
              OsCall.SET_REPARSE_POINT (os.CreateFileW st0.calls path true) record])) ∧
      ∀ (os : Os) (A : typed_buffer_alloc) (path : wstring) (st st' : State)
        (raw_data : List BYTE),
        ReadReparsePoint os A path st = (some record, st') →
        bytes.length ≤ 4088 ∧
        ReadRaw os A path raw_data st = Mem.done (some (tag, bytes), st') := by
  refine ⟨_, by simp only [List.append_assoc], CreateRawMountPoint_buffer_eq B tag bytes,
    fun os path st0 => ⟨CreateRawMountPoint_eq os B path tag bytes st0,
      fun hopen => CreateMountPointInternal_calls os path _ st0 hopen⟩, ?_⟩
  intro os A path st st' raw_data hread
  exact ReadRaw_of_record os A path st st' tag bytes raw_data htag hread

theorem C12_raw_pass_through_witness :
    0x12345678 < 4294967296 ∧
    CreateRawMountPoint permissiveOs zeroed [100] 0x12345678 [1, 2, 3] ⟨0, []⟩ =
      Mem.done (CreateMountPointInternal permissiveOs [100] sampleRaw ⟨0, []⟩) ∧
    permissiveOs.IsValid (permissiveOs.CreateFileW [] [100] true) = true ∧
    (CreateMountPointInternal permissiveOs [100] sampleRaw ⟨0, []⟩).2.calls =
      [] ++ [OsCall.CreateFileW [100] true,
        OsCall.SET_REPARSE_POINT (permissiveOs.CreateFileW [] [100] true) sampleRaw] ∧
    ReadReparsePoint (replayOs sampleRaw) zeroed [100] ⟨0, []⟩ =
      (some sampleRaw, stateAfterGet (replayOs sampleRaw) [100] 4096 ⟨0, []⟩) ∧
    ReadRaw (replayOs sampleRaw) zeroed [100] [9, 9, 9, 9, 9] ⟨0, []⟩ =
      Mem.done (some (0x12345678, [1, 2, 3]),
        stateAfterGet (replayOs sampleRaw) [100] 4096 ⟨0, []⟩) := by
  obtain ⟨record, hrec, -, hcreate, hall⟩ :=
    C12_raw_pass_through zeroed 0x12345678 [1, 2, 3] (by decide)
  have hs : record = sampleRaw := by rw [hrec]; decide
  subst hs
  have hread := ReadReparsePoint_eq (replayOs sampleRaw) zeroed [100] ⟨0, []⟩ sampleRaw rfl
  have hopen : permissiveOs.IsValid (permissiveOs.CreateFileW [] [100] true) = true := by
    decide
  exact ⟨by decide, (hcreate permissiveOs [100] ⟨0, []⟩).1, hopen,
    (hcreate permissiveOs [100] ⟨0, []⟩).2 hopen, hread,
    (hall (replayOs sampleRaw) zeroed [100] ⟨0, []⟩ _ [9, 9, 9, 9, 9] hread).2⟩

end ReparsePoint
